import Mathlib

/-!
Verification development for the 0 A.D. shader effect/technique/program
resolution-and-caching engine (`CShaderManager`, graphics/ShaderManager.cpp).

The definitions below are a shallow embedding of the C++ source:
* XML documents (already parsed by Xeromyces, which is out of scope) are
  modelled as a tree of elements with name, attribute list and children;
  `GetNamedItem` on a missing attribute yields the empty string, as in
  `XMBAttributeList`.
* The define set `CShaderDefines` (ShaderDefines.cpp is not part of the
  sampled sources) is modelled from the spec: an ordered name-to-value map
  where `Add` inserts or overwrites, equality holds iff the sets contain the
  same pairs regardless of insertion order, and hashing is consistent with
  equality.  We realise it as an association list kept sorted by name, so
  equality is structural.
* Stateful methods of `CShaderManager` become explicit state passing over
  `ShaderManagerState`; external collaborators (VFS documents, the
  preprocessor's conditional evaluator, backend enum parsers, device
  capabilities) are fields of an environment record.
* Machine integers are `Nat`/`Int`; hashing is performed modulo 2^64.
-/

/-! ## XML document model -/

/-- A parsed XML element (`XMBElement`): node name, attribute list and child
elements, in document order. -/
inductive XMBElement where
  | mk (nodeName : String) (attrs : List (String × String)) (children : List XMBElement)

def XMBElement.nodeName : XMBElement → String
  | .mk n _ _ => n

def XMBElement.attrs : XMBElement → List (String × String)
  | .mk _ a _ => a

def XMBElement.children : XMBElement → List XMBElement
  | .mk _ _ c => c

/-- `XMBAttributeList::GetNamedItem`: the value of the named attribute, or the
empty string when the attribute is absent. -/
def getAttr (e : XMBElement) (a : String) : String :=
  match e.attrs.lookup a with
  | some v => v
  | none => ""

/-! ## Small string-parsing helpers (`CStr::ToInt` / `CStr::ToULong`) -/

/-- Leading-digits value of a string, `strtoul`-style: parse the maximal
digit prefix, other strings give 0. -/
def strToNat (s : String) : Nat :=
  (s.data.takeWhile Char.isDigit).foldl (fun a c => a * 10 + (c.toNat - 48)) 0

/-- `CStr::ToInt`, `strtol`-style with an optional leading minus sign. -/
def strToInt (s : String) : Int :=
  match s.data with
  | '-' :: rest => - (strToNat (String.mk (rest.takeWhile Char.isDigit)) : Int)
  | _ => (strToNat s : Int)

/-! ## Define sets

Modelled from the spec: ShaderDefines.cpp is not among the sampled sources.
The spec says: "`add(name, value)`: inserts or overwrites; later writes for
the same name win", "two sets are equal iff they contain the same name→value
pairs regardless of insertion order; hash must be consistent with equality".
We keep the entries sorted by name so that value equality is structural. -/

/-- A define set: association list of (name, value), kept sorted by name. -/
abbrev CShaderDefines := List (String × String)

/-- `CShaderDefines::Add`: insert or overwrite, keeping the list sorted by
name; a later write for the same name wins. -/
def addDefine : CShaderDefines → String → String → CShaderDefines
  | [], n, v => [(n, v)]
  | (m, w) :: t, n, v =>
    if n < m then (n, v) :: (m, w) :: t
    else if n = m then (n, v) :: t
    else (m, w) :: addDefine t n v

/-- Lookup of a define's value by name. -/
def lookupDef : CShaderDefines → String → Option String
  | [], _ => none
  | (m, w) :: t, n => if m = n then some w else lookupDef t n

/-- Build a define set by `Add`-ing a list of pairs, in order, into the empty
set. -/
def buildDefines (l : List (String × String)) : CShaderDefines :=
  l.foldl (fun d nv => addDefine d nv.1 nv.2) []

/-! ## Hashing (lib/hash.h `hash_combine`, modulo 2^64) -/

/-- Boost-style `hash_combine` over 64-bit `size_t`, modelled on `Nat` with an
explicit modulus. -/
def hash_combine (seed v : Nat) : Nat :=
  (seed ^^^ (v + 0x9e3779b9 + seed * 64 + seed / 4)) % (2 ^ 64)

/-- Modelled from the spec: `CStrIntern::GetHash` (interned-string hash, not
among the sampled sources); any fixed function of the string contents. -/
def strHash (s : String) : Nat :=
  s.foldl (fun h c => (h * 131 + c.toNat) % (2 ^ 64)) 0

/-- Modelled from the spec: `CShaderDefines::GetHash` — a hash of the whole
set, consistent with equality (structural on the sorted representation). -/
def definesHash (d : CShaderDefines) : Nat :=
  d.foldl (fun h nv => hash_combine (hash_combine h (strHash nv.1)) (strHash nv.2)) 0

/-! ## Cache keys -/

/-- `CShaderManager::CacheKey` (program cache): program name plus define set.
The struct itself lives in ShaderManager.h (not among the sampled sources);
the spec gives its shape: `(program name, Define Set)`, equal iff both
components are equal. -/
structure CacheKey where
  name : String
  defines : CShaderDefines
deriving DecidableEq

/-- `CShaderManager::EffectCacheKey`: effect name plus define set (a distinct
type from the program cache key, same shape). -/
structure EffectCacheKey where
  name : String
  defines : CShaderDefines
deriving DecidableEq

/-- `CShaderManager::EffectCacheKey::operator==` (ShaderManager.cpp):
`name == b.name && defines == b.defines`. -/
def effectCacheKeyEq (a b : EffectCacheKey) : Bool :=
  decide (a.name = b.name) && decide (a.defines = b.defines)

/-- `CShaderManager::EffectCacheKeyHash::operator()` (ShaderManager.cpp):
seed 0, `hash_combine` with the name's hash, then with the define set's
hash. -/
def effectCacheKeyHash (k : EffectCacheKey) : Nat :=
  hash_combine (hash_combine 0 (strHash k.name)) (definesHash k.defines)

/-- Association-list lookup with a decidable key type (models `std::map::find`
/ `std::unordered_map::find`, which compare keys by value). -/
def findCached {κ α : Type} [DecidableEq κ] : List (κ × α) → κ → Option α
  | [], _ => none
  | (k0, v) :: t, k => if k0 = k then some v else findCached t k

/-! ## Vertex attribute semantics (`ParseAttribSemantics`) -/

/-- The semantics names recognized by `ParseAttribSemantics`. -/
def recognizedSemantics : List String :=
  ["gl_Vertex", "gl_Normal", "gl_Color", "gl_SecondaryColor", "gl_FogCoord",
   "gl_MultiTexCoord0", "gl_MultiTexCoord1", "gl_MultiTexCoord2",
   "gl_MultiTexCoord3", "gl_MultiTexCoord4", "gl_MultiTexCoord5",
   "gl_MultiTexCoord6", "gl_MultiTexCoord7",
   "CustomAttribute0", "CustomAttribute1", "CustomAttribute2"]

/-- `ParseAttribSemantics` (ShaderManager.cpp): maps known semantics onto
fixed attribute locations.  Modelled from the spec for the unrecognized case:
`debug_warn` (lib/debug.h, not among the sampled sources) is treated as a
fatal authoring diagnostic ("aborts with a diagnostic", spec sections 4.2 and
7), so the unrecognized case is an `Except.error` carrying the diagnostic
text. -/
def ParseAttribSemantics (str : String) : Except String Nat :=
  if str = "gl_Vertex" then .ok 0
  else if str = "gl_Normal" then .ok 2
  else if str = "gl_Color" then .ok 3
  else if str = "gl_SecondaryColor" then .ok 4
  else if str = "gl_FogCoord" then .ok 5
  else if str = "gl_MultiTexCoord0" then .ok 8
  else if str = "gl_MultiTexCoord1" then .ok 9
  else if str = "gl_MultiTexCoord2" then .ok 10
  else if str = "gl_MultiTexCoord3" then .ok 11
  else if str = "gl_MultiTexCoord4" then .ok 12
  else if str = "gl_MultiTexCoord5" then .ok 13
  else if str = "gl_MultiTexCoord6" then .ok 14
  else if str = "gl_MultiTexCoord7" then .ok 15
  else if str = "CustomAttribute0" then .ok 1
  else if str = "CustomAttribute1" then .ok 6
  else if str = "CustomAttribute2" then .ok 7
  else .error "Invalid attribute semantics"

/-! ## Fragment sampler types (`NewProgram`, fragment uniform branch) -/

def GL_TEXTURE_1D : Nat := 0x0DE0
def GL_TEXTURE_2D : Nat := 0x0DE1
def GL_TEXTURE_3D : Nat := 0x806F
def GL_TEXTURE_CUBE_MAP : Nat := 0x8513

/-- The `type` attribute resolution for fragment uniforms (ShaderManager.cpp,
`NewProgram`): `type` starts as `GL_TEXTURE_2D`; recognized sampler names
override it; an unlisted type string hits no branch and keeps the 2D default
with no diagnostic.  Modelled from the spec for the constrained backend:
`debug_warn` (lib/debug.h, not among the sampled sources) fires for
sampler1D/sampler3D on GLES, and the spec makes unsupported sampler
dimensionality on a constrained backend a fatal authoring error ("loud
abort", spec sections 4.2, 7 and 9), so — as for `ParseAttribSemantics` —
that case is an `Except.error` carrying the diagnostic text. -/
def samplerTypeOf (gles : Bool) (t : String) : Except String Nat :=
  if t = "sampler1D" then
    if gles then .error "sampler1D not implemented on GLES"
    else .ok GL_TEXTURE_1D
  else if t = "sampler2D" then .ok GL_TEXTURE_2D
  else if t = "sampler3D" then
    if gles then .error "sampler3D not implemented on GLES"
    else .ok GL_TEXTURE_3D
  else if t = "samplerCube" then .ok GL_TEXTURE_CUBE_MAP
  else .ok GL_TEXTURE_2D

/-- The four sampler type names recognized by the fragment-uniform branch. -/
def samplerNames : List String :=
  ["sampler1D", "sampler2D", "sampler3D", "samplerCube"]

/-! ## Vertex stream flags

The `STREAM_*` constants live in ShaderProgram.h (not among the sampled
sources); their exact values are irrelevant to every claim, we use distinct
bits. -/

def STREAM_POS : Nat := 1
def STREAM_NORMAL : Nat := 2
def STREAM_COLOR : Nat := 4
def STREAM_UV0 : Nat := 8
def STREAM_UV1 : Nat := 16
def STREAM_UV2 : Nat := 32
def STREAM_UV3 : Nat := 64

/-- The stream-name dispatch of the `<stream>` branch: the chain of
`else if` comparisons, an unknown name setting no flag. -/
def streamFlagOf (sn : String) : Nat :=
  if sn = "pos" then STREAM_POS
  else if sn = "normal" then STREAM_NORMAL
  else if sn = "color" then STREAM_COLOR
  else if sn = "uv0" then STREAM_UV0
  else if sn = "uv1" then STREAM_UV1
  else if sn = "uv2" then STREAM_UV2
  else if sn = "uv3" then STREAM_UV3
  else 0

/-! ## Program description parsing (`CShaderManager::NewProgram`) -/

/-- `std::map::operator[]` assignment: replace the first binding of the key,
or append a new binding. -/
def setAssoc {α : Type} : List (String × α) → String → α → List (String × α)
  | [], k, v => [(k, v)]
  | (m, w) :: t, k, v => if m = k then (k, v) :: t else (m, w) :: setAssoc t k v

/-- Accumulated result of parsing a program description document: the local
variables of `NewProgram` before program construction. -/
structure ProgParse where
  vertexFile : String
  fragmentFile : String
  defines : CShaderDefines
  vertexUniforms : List (String × Int)
  fragmentUniforms : List (String × (Int × Nat))
  vertexAttribs : List (String × Nat)
  streamFlags : Nat
deriving DecidableEq

/-- One `<vertex>` child (`uniform` / `stream` / `attrib`), guarded by the
optional `if` conditional; the `attrib` case can abort on an unrecognized
semantics string. -/
def processVertexParam (tc : String → Bool) (st : ProgParse) (p : XMBElement) :
    Except String ProgParse :=
  let cond := getAttr p "if"
  if cond ≠ "" ∧ ¬ tc cond then .ok st
  else if p.nodeName = "uniform" then
    .ok { st with vertexUniforms :=
            setAssoc st.vertexUniforms (getAttr p "name") (strToInt (getAttr p "loc")) }
  else if p.nodeName = "stream" then
    .ok { st with streamFlags := st.streamFlags ||| streamFlagOf (getAttr p "name") }
  else if p.nodeName = "attrib" then
    match ParseAttribSemantics (getAttr p "semantics") with
    | .error d => .error d
    | .ok attribLoc =>
        .ok { st with vertexAttribs := setAssoc st.vertexAttribs (getAttr p "name") attribLoc }
  else .ok st

/-- The `<vertex>` parameter loop, threading the possible abort. -/
def processVertexParams (tc : String → Bool) :
    ProgParse → List XMBElement → Except String ProgParse
  | st, [] => .ok st
  | st, p :: rest =>
    match processVertexParam tc st p with
    | .error d => .error d
    | .ok st1 => processVertexParams tc st1 rest

/-- One `<fragment>` child: only `uniform` is handled; sampler type
resolution per `samplerTypeOf`, whose constrained-backend diagnostic aborts
parsing. -/
def processFragmentParam (gles : Bool) (tc : String → Bool) (st : ProgParse)
    (p : XMBElement) : Except String ProgParse :=
  let cond := getAttr p "if"
  if cond ≠ "" ∧ ¬ tc cond then .ok st
  else if p.nodeName = "uniform" then
    match samplerTypeOf gles (getAttr p "type") with
    | .error d => .error d
    | .ok ty =>
      .ok { st with
            fragmentUniforms :=
              setAssoc st.fragmentUniforms (getAttr p "name")
                (strToInt (getAttr p "loc"), ty) }
  else .ok st

/-- The `<fragment>` parameter loop, threading the possible abort. -/
def processFragmentParams (gles : Bool) (tc : String → Bool) :
    ProgParse → List XMBElement → Except String ProgParse
  | st, [] => .ok st
  | st, p :: rest =>
    match processFragmentParam gles tc st p with
    | .error d => .error d
    | .ok st1 => processFragmentParams gles tc st1 rest

/-- One root child of a program description: `define`, `vertex` or
`fragment`. -/
def processRootChild (gles : Bool) (tc : String → Bool) (st : ProgParse)
    (c : XMBElement) : Except String ProgParse :=
  if c.nodeName = "define" then
    .ok { st with defines := addDefine st.defines (getAttr c "name") (getAttr c "value") }
  else if c.nodeName = "vertex" then
    processVertexParams tc { st with vertexFile := "shaders/" ++ getAttr c "file" } c.children
  else if c.nodeName = "fragment" then
    processFragmentParams gles tc
      { st with fragmentFile := "shaders/" ++ getAttr c "file" } c.children
  else .ok st

/-- The root-children loop of `NewProgram`, threading the possible abort. -/
def processRootChildren (gles : Bool) (tc : String → Bool) :
    ProgParse → List XMBElement → Except String ProgParse
  | st, [] => .ok st
  | st, c :: rest =>
    match processRootChild gles tc st c with
    | .error d => .error d
    | .ok st1 => processRootChildren gles tc st1 rest

/-- Parse a program description document: the document-walking part of
`CShaderManager::NewProgram`, between validation and program construction.
The preprocessor is seeded with the base defines only (`AddDefines` happens
before the loop), so `tc` already closes over them. -/
def parseProgramDoc (gles : Bool) (tc : String → Bool) (baseDefines : CShaderDefines)
    (root : XMBElement) : Except String ProgParse :=
  processRootChildren gles tc
    { vertexFile := "", fragmentFile := "", defines := baseDefines,
      vertexUniforms := [], fragmentUniforms := [], vertexAttribs := [],
      streamFlags := 0 }
    root.children

/-- A constructed shader program (`CShaderProgram`, external to the sampled
sources): identified here by the data `NewProgram` feeds the constructor,
plus an identity used by the hotload tracker's weak references. -/
structure Program where
  id : Nat
  isGLSL : Bool
  vertexFile : String
  fragmentFile : String
  defines : CShaderDefines
  vertexUniforms : List (String × Int)
  fragmentUniforms : List (String × (Int × Nat))
  vertexAttribs : List (String × Nat)
  streamFlags : Nat
deriving DecidableEq

/-! ## Pipeline state descriptors -/

/-- Per-face stencil operation state. -/
structure StencilOpState where
  compareOp : Nat
  failOp : Nat
  passOp : Nat
  depthFailOp : Nat
deriving DecidableEq

structure DepthStencilStateDesc where
  depthTestEnabled : Bool
  depthCompareOp : Nat
  depthWriteEnabled : Bool
  stencilTestEnabled : Bool
  stencilReference : Nat
  stencilReadMask : Nat
  stencilWriteMask : Nat
  stencilFrontFace : StencilOpState
  stencilBackFace : StencilOpState
deriving DecidableEq

structure BlendStateDesc where
  enabled : Bool
  srcColorBlendFactor : Nat
  srcAlphaBlendFactor : Nat
  dstColorBlendFactor : Nat
  dstAlphaBlendFactor : Nat
  colorBlendOp : Nat
  alphaBlendOp : Nat
  constant : Nat
  colorWriteMask : Nat
deriving DecidableEq

structure RasterizationStateDesc where
  cullMode : Nat
  frontFace : Nat
  polygonMode : Nat
deriving DecidableEq

/-- `Renderer::Backend::GraphicsPipelineStateDesc`. -/
structure GraphicsPipelineStateDesc where
  blendState : BlendStateDesc
  rasterizationState : RasterizationStateDesc
  depthStencilState : DepthStencilStateDesc
deriving DecidableEq

/-- `Renderer::Backend::ColorWriteMask` bits (backend header not among the
sampled sources; distinct bits). -/
def ColorWriteMaskRED : Nat := 1
def ColorWriteMaskGREEN : Nat := 2
def ColorWriteMaskBLUE : Nat := 4
def ColorWriteMaskALPHA : Nat := 8

/-- The backend token parsers (`ParseBlendFactor`, `ParseCompareOp`, ...)
live outside the sampled sources; they are environment inputs.  `parseColor`
models `CColor::ParseString` (`none` = parse failure, which is logged). -/
structure BackendEnv where
  parseBlendFactor : String → Nat
  parseBlendOp : String → Nat
  parseCullMode : String → Nat
  parseFrontFace : String → Nat
  parsePolygonMode : String → Nat
  parseCompareOp : String → Nat
  parseStencilOp : String → Nat
  parseColor : String → Option Nat

/-! ## Pass processing (`CShaderManager::NewEffect`, per-pass loop body) -/

/-- Accumulator of the per-pass element loop: the pass-local define set, the
pipeline state descriptor under construction, and the log lines emitted. -/
structure PassAcc where
  passDefines : CShaderDefines
  desc : GraphicsPipelineStateDesc
  log : List String
deriving DecidableEq

/-- The `<blend>` branch of the per-pass loop: enable blending, shared
color/alpha source and destination factors, optional blend op, optional
constant color whose parse failure is logged (second component) and leaves
the constant as previously set. -/
def processBlendEl (benv : BackendEnv) (desc : GraphicsPipelineStateDesc)
    (el : XMBElement) : GraphicsPipelineStateDesc × List String :=
  let bs0 := desc.blendState
  let bs1 := { bs0 with
    enabled := true,
    srcColorBlendFactor := benv.parseBlendFactor (getAttr el "src"),
    srcAlphaBlendFactor := benv.parseBlendFactor (getAttr el "src"),
    dstColorBlendFactor := benv.parseBlendFactor (getAttr el "dst"),
    dstAlphaBlendFactor := benv.parseBlendFactor (getAttr el "dst") }
  let bs2 :=
    if getAttr el "op" ≠ "" then
      { bs1 with colorBlendOp := benv.parseBlendOp (getAttr el "op"),
                 alphaBlendOp := benv.parseBlendOp (getAttr el "op") }
    else bs1
  if getAttr el "constant" ≠ "" then
    match benv.parseColor (getAttr el "constant") with
    | some c => ({ desc with blendState := { bs2 with constant := c } }, [])
    | none =>
      ({ desc with blendState := bs2 },
       ["Failed to parse blend constant: " ++ getAttr el "constant"])
  else ({ desc with blendState := bs2 }, [])

/-- The `<color>` branch: reset the write mask to zero, then enable each of
the four channels whose attribute equals "TRUE". -/
def processColorEl (desc : GraphicsPipelineStateDesc) (el : XMBElement) :
    GraphicsPipelineStateDesc :=
  let m0 : Nat := 0
  let m1 := if getAttr el "mask_red" = "TRUE" then m0 ||| ColorWriteMaskRED else m0
  let m2 := if getAttr el "mask_green" = "TRUE" then m1 ||| ColorWriteMaskGREEN else m1
  let m3 := if getAttr el "mask_blue" = "TRUE" then m2 ||| ColorWriteMaskBLUE else m2
  let m4 := if getAttr el "mask_alpha" = "TRUE" then m3 ||| ColorWriteMaskALPHA else m3
  { desc with blendState := { desc.blendState with colorWriteMask := m4 } }

/-- The `<cull>` branch: optional cull-mode and front-face overrides. -/
def processCullEl (benv : BackendEnv) (desc : GraphicsPipelineStateDesc)
    (el : XMBElement) : GraphicsPipelineStateDesc :=
  let rs0 := desc.rasterizationState
  let rs1 := if getAttr el "mode" ≠ "" then
      { rs0 with cullMode := benv.parseCullMode (getAttr el "mode") } else rs0
  let rs2 := if getAttr el "front_face" ≠ "" then
      { rs1 with frontFace := benv.parseFrontFace (getAttr el "front_face") } else rs1
  { desc with rasterizationState := rs2 }

/-- Depth step: optional `test` override (value compared against "TRUE"). -/
def dApplyTest (el : XMBElement) (ds : DepthStencilStateDesc) : DepthStencilStateDesc :=
  if getAttr el "test" ≠ "" then { ds with depthTestEnabled := getAttr el "test" = "TRUE" }
  else ds

/-- Depth step: optional `func` (compare-op) override. -/
def dApplyFunc (benv : BackendEnv) (el : XMBElement) (ds : DepthStencilStateDesc) :
    DepthStencilStateDesc :=
  if getAttr el "func" ≠ "" then { ds with depthCompareOp := benv.parseCompareOp (getAttr el "func") }
  else ds

/-- Depth step: optional `mask` (write-enable) override (value compared
against lowercase "true"). -/
def dApplyMask (el : XMBElement) (ds : DepthStencilStateDesc) : DepthStencilStateDesc :=
  if getAttr el "mask" ≠ "" then { ds with depthWriteEnabled := getAttr el "mask" = "true" }
  else ds

/-- The `<depth>` branch: the three independently optional overrides, in
source order. -/
def processDepthEl (benv : BackendEnv) (desc : GraphicsPipelineStateDesc)
    (el : XMBElement) : GraphicsPipelineStateDesc :=
  { desc with depthStencilState :=
      dApplyMask el (dApplyFunc benv el (dApplyTest el desc.depthStencilState)) }

/-- The `<polygon>` branch: optional fill-mode override. -/
def processPolygonEl (benv : BackendEnv) (desc : GraphicsPipelineStateDesc)
    (el : XMBElement) : GraphicsPipelineStateDesc :=
  let rs0 := desc.rasterizationState
  let rs1 := if getAttr el "mode" ≠ "" then
      { rs0 with polygonMode := benv.parsePolygonMode (getAttr el "mode") } else rs0
  { desc with rasterizationState := rs1 }

/-- Stencil step: optional `test` override (value compared against "TRUE"). -/
def sApplyTest (el : XMBElement) (ds : DepthStencilStateDesc) : DepthStencilStateDesc :=
  if getAttr el "test" ≠ "" then { ds with stencilTestEnabled := getAttr el "test" = "TRUE" }
  else ds

/-- Stencil step: optional `reference` override. -/
def sApplyReference (el : XMBElement) (ds : DepthStencilStateDesc) : DepthStencilStateDesc :=
  if getAttr el "reference" ≠ "" then { ds with stencilReference := strToNat (getAttr el "reference") }
  else ds

/-- Stencil step: optional `mask_read` override. -/
def sApplyReadMask (el : XMBElement) (ds : DepthStencilStateDesc) : DepthStencilStateDesc :=
  if getAttr el "mask_read" ≠ "" then { ds with stencilReadMask := strToNat (getAttr el "mask_read") }
  else ds

/-- Stencil step: optional `mask` (write mask) override. -/
def sApplyWriteMask (el : XMBElement) (ds : DepthStencilStateDesc) : DepthStencilStateDesc :=
  if getAttr el "mask" ≠ "" then { ds with stencilWriteMask := strToNat (getAttr el "mask") }
  else ds

/-- Stencil step: optional `compare` op, applied to both faces. -/
def sApplyCompare (benv : BackendEnv) (el : XMBElement) (ds : DepthStencilStateDesc) :
    DepthStencilStateDesc :=
  if getAttr el "compare" ≠ "" then
    { ds with
      stencilFrontFace := { ds.stencilFrontFace with compareOp := benv.parseCompareOp (getAttr el "compare") },
      stencilBackFace := { ds.stencilBackFace with compareOp := benv.parseCompareOp (getAttr el "compare") } }
  else ds

/-- Stencil step: optional `fail` op, applied to both faces. -/
def sApplyFail (benv : BackendEnv) (el : XMBElement) (ds : DepthStencilStateDesc) :
    DepthStencilStateDesc :=
  if getAttr el "fail" ≠ "" then
    { ds with
      stencilFrontFace := { ds.stencilFrontFace with failOp := benv.parseStencilOp (getAttr el "fail") },
      stencilBackFace := { ds.stencilBackFace with failOp := benv.parseStencilOp (getAttr el "fail") } }
  else ds

/-- Stencil step: optional `pass` op, applied to both faces. -/
def sApplyPass (benv : BackendEnv) (el : XMBElement) (ds : DepthStencilStateDesc) :
    DepthStencilStateDesc :=
  if getAttr el "pass" ≠ "" then
    { ds with
      stencilFrontFace := { ds.stencilFrontFace with passOp := benv.parseStencilOp (getAttr el "pass") },
      stencilBackFace := { ds.stencilBackFace with passOp := benv.parseStencilOp (getAttr el "pass") } }
  else ds

/-- Stencil step: optional `depth_fail` op, applied to both faces. -/
def sApplyDepthFail (benv : BackendEnv) (el : XMBElement) (ds : DepthStencilStateDesc) :
    DepthStencilStateDesc :=
  if getAttr el "depth_fail" ≠ "" then
    { ds with
      stencilFrontFace := { ds.stencilFrontFace with depthFailOp := benv.parseStencilOp (getAttr el "depth_fail") },
      stencilBackFace := { ds.stencilBackFace with depthFailOp := benv.parseStencilOp (getAttr el "depth_fail") } }
  else ds

/-- The `<stencil>` branch: the independently optional overrides, in source
order (`test`, `reference`, `mask_read`, `mask`, then the four ops applied
identically to front and back faces). -/
def processStencilEl (benv : BackendEnv) (desc : GraphicsPipelineStateDesc)
    (el : XMBElement) : GraphicsPipelineStateDesc :=
  { desc with depthStencilState :=
      sApplyDepthFail benv el (sApplyPass benv el (sApplyFail benv el (sApplyCompare benv el
        (sApplyWriteMask el (sApplyReadMask el (sApplyReference el
          (sApplyTest el desc.depthStencilState))))))) }

/-- One element inside a `<pass>`: `define`, `blend`, `color`, `cull`,
`depth`, `polygon` or `stencil`, translated clause by clause from
`NewEffect` (each tag's clause is its own helper above). -/
def processPassElement (benv : BackendEnv) (acc : PassAcc) (el : XMBElement) : PassAcc :=
  if el.nodeName = "define" then
    { acc with passDefines := addDefine acc.passDefines (getAttr el "name") (getAttr el "value") }
  else if el.nodeName = "blend" then
    let r := processBlendEl benv acc.desc el
    { acc with desc := r.1, log := acc.log ++ r.2 }
  else if el.nodeName = "color" then
    { acc with desc := processColorEl acc.desc el }
  else if el.nodeName = "cull" then
    { acc with desc := processCullEl benv acc.desc el }
  else if el.nodeName = "depth" then
    { acc with desc := processDepthEl benv acc.desc el }
  else if el.nodeName = "polygon" then
    { acc with desc := processPolygonEl benv acc.desc el }
  else if el.nodeName = "stencil" then
    { acc with desc := processStencilEl benv acc.desc el }
  else acc

/-- Process one `<pass>`: start from a copy of the technique-level define set
and the engine default descriptor, fold over the pass's child elements. -/
def processPass (benv : BackendEnv) (techDefines : CShaderDefines)
    (defaultDesc : GraphicsPipelineStateDesc) (passEl : XMBElement) : PassAcc :=
  passEl.children.foldl (processPassElement benv)
    { passDefines := techDefines, desc := defaultDesc, log := [] }

/-! ## Technique usability (`CShaderManager::NewEffect`, `<require>` loop) -/

/-- `CVideoMode::Backend` (only `GL` and `GL_ARB` are inspected by the
sampled source). -/
inductive Backend where
  | GL
  | GL_ARB
  | other
deriving DecidableEq

/-- The capability boundary: active backend and whether the device reports
ARB shader support. -/
structure VideoEnv where
  backend : Backend
  arbShaders : Bool

/-- One child of a technique, updating the usability flag, and recording every
conditional string handed to `TestConditional` (the second component): a
faithful transcription of the `<require>` loop, which does not break out
early. -/
def requireStep (venv : VideoEnv) (tcond : String → Bool)
    (acc : Bool × List String) (child : XMBElement) : Bool × List String :=
  if child.nodeName = "require" then
    if getAttr child "shaders" = "arb" then
      (if venv.backend ≠ Backend.GL_ARB ∨ ¬ venv.arbShaders then false else acc.1, acc.2)
    else if getAttr child "shaders" = "glsl" then
      (if venv.backend ≠ Backend.GL then false else acc.1, acc.2)
    else if getAttr child "context" ≠ "" then
      (if ¬ tcond (getAttr child "context") then false else acc.1,
       acc.2 ++ [getAttr child "context"])
    else acc
  else acc

/-- A technique's usability: all its `<require>` predicates hold.  Also
returns the conditionals evaluated on the way. -/
def techniqueUsableEval (venv : VideoEnv) (tcond : String → Bool)
    (tech : XMBElement) : Bool × List String :=
  tech.children.foldl (requireStep venv tcond) (true, [])

/-- The technique-filtering loop of `NewEffect`: every candidate's predicates
are evaluated, the usable ones collected in document order; the second
component is the concatenation of all conditionals evaluated. -/
def collectUsableTechs (venv : VideoEnv) (tcond : String → Bool) :
    List XMBElement → List XMBElement × List String
  | [] => ([], [])
  | t :: rest =>
    let e := techniqueUsableEval venv tcond t
    let r := collectUsableTechs venv tcond rest
    ((if e.1 then t :: r.1 else r.1), e.2 ++ r.2)

/-! ## Technique-level defines and passes (`NewEffect`, chosen technique) -/

/-- The first loop over the chosen technique's children: collect `<define>`
declarations (later writes win) and the sort-by-distance flag, in document
order, before any pass is processed. -/
def techDefinesAndSort (base : CShaderDefines) (tech : XMBElement) :
    CShaderDefines × Bool :=
  tech.children.foldl
    (fun acc c =>
      if c.nodeName = "define" then
        (addDefine acc.1 (getAttr c "name") (getAttr c "value"), acc.2)
      else if c.nodeName = "sort_by_distance" then (acc.1, true)
      else acc)
    (base, false)

/-- The pure content of the per-pass loop: for each `<pass>` child, the pass
accumulator (resolved defines, descriptor, log) and the `shader` attribute
naming the program to load with those defines. -/
def techPassesPure (benv : BackendEnv) (defaultDesc : GraphicsPipelineStateDesc)
    (techDefines : CShaderDefines) (tech : XMBElement) : List (PassAcc × String) :=
  tech.children.foldl
    (fun l c =>
      if c.nodeName = "pass" then
        l ++ [(processPass benv techDefines defaultDesc c, getAttr c "shader")]
      else l)
    []

/-- The fully resolved define set of one pass: the technique-level set with
the pass's own `<define>` declarations layered on top. -/
def resolvePassDefines (techDefines : CShaderDefines) (p : XMBElement) : CShaderDefines :=
  p.children.foldl
    (fun d c =>
      if c.nodeName = "define" then addDefine d (getAttr c "name") (getAttr c "value")
      else d)
    techDefines

/-! ## Hotload dependency tracker -/

/-- `m_HotloadFiles`: file path mapped to the set of dependent programs,
identified by program id (the weak references' pointee identities). -/
abbrev HotloadFilesMap := List (String × List Nat)

/-- `CShaderManager::AddProgramFileDependency`:
`m_HotloadFiles[path].insert(program)` — set insertion, hence idempotent. -/
def addProgramFileDependency (m : HotloadFilesMap) (progId : Nat) (path : String) :
    HotloadFilesMap :=
  match m with
  | [] => [(path, [progId])]
  | (p, ids) :: t =>
    if p = path then (p, if progId ∈ ids then ids else ids ++ [progId]) :: t
    else (p, ids) :: addProgramFileDependency t progId path

/-- `Status`: the engine status type; the sampled source only ever returns
`INFO::OK` from the reload callback. -/
inductive Status where
  | ok
  | fail
deriving DecidableEq

/-- `CShaderManager::ReloadChangedFile`: look the path up; absent is a
successful no-op; otherwise reload every dependent whose weak reference still
resolves (`alive`), silently skipping the rest.  The second component lists
the programs actually reloaded, in order. -/
def reloadChangedFile (alive : Nat → Bool) (m : HotloadFilesMap) (path : String) :
    Status × List Nat :=
  match findCached m path with
  | none => (Status.ok, [])
  | some ids => (Status.ok, ids.filter alive)

/-! ## The shader manager state machine -/

/-- `CShaderPass`: pipeline state descriptor plus resolved program handle
(`none` is the null/failure handle). -/
structure ShaderPass where
  pipelineStateDesc : GraphicsPipelineStateDesc
  shader : Option Program
deriving DecidableEq

/-- `CShaderTechnique`: ordered passes plus the sort-by-distance flag. -/
structure CShaderTechnique where
  passes : List ShaderPass
  sortByDistance : Bool
deriving DecidableEq

/-- Mutable state of `CShaderManager`: the two caches, the hotload map, plus
observability instrumentation shared with the log: `fileReads` counts
`CXeromyces::Load` invocations (document reads/parses), `nextProgId`
numbers constructed programs. -/
structure ShaderManagerState where
  programCache : List (CacheKey × Option Program)
  effectCache : List (EffectCacheKey × Option CShaderTechnique)
  hotloadFiles : HotloadFilesMap
  log : List String
  fileReads : Nat
  nextProgId : Nat
deriving DecidableEq

/-- The external world of `CShaderManager`: the virtual filesystem's parsed
documents, the RelaxNG validator, the preprocessor's conditional evaluator
(seeded per call with the base defines), the GLES configuration, the video
capability boundary, the backend token parsers, the engine-wide default
pipeline descriptor (`MakeDefaultGraphicsPipelineStateDesc`, outside the
sampled sources) and each program's reported file dependencies. -/
structure ManagerEnv where
  progDocs : String → Option XMBElement
  effectDocs : String → Option XMBElement
  validateProg : XMBElement → Bool
  tcond : CShaderDefines → String → Bool
  gles : Bool
  venv : VideoEnv
  benv : BackendEnv
  defaultDesc : GraphicsPipelineStateDesc
  fileDeps : Program → List String

/-- `CShaderManager::NewProgram`: read the document (counted as a file read);
missing document or failed validation is a load failure (`.ok none` at the
caller's level is produced by `loadProgram`); a parse abort (unrecognized
attribute semantics) is `.error`; otherwise construct the program and
register its file dependencies with the hotload tracker. -/
def newProgramRun (env : ManagerEnv) (s : ShaderManagerState) (name : String)
    (defines : CShaderDefines) : Except String (Option Program) × ShaderManagerState :=
  let s1 := { s with fileReads := s.fileReads + 1 }
  match env.progDocs name with
  | none => (.ok none, s1)
  | some root =>
    if ¬ env.validateProg root then (.ok none, s1)
    else
      match parseProgramDoc env.gles (env.tcond defines) defines root with
      | .error d => (.error d, s1)
      | .ok pp =>
        let prog : Program :=
          { id := s1.nextProgId,
            isGLSL := getAttr root "type" = "glsl",
            vertexFile := pp.vertexFile, fragmentFile := pp.fragmentFile,
            defines := pp.defines,
            vertexUniforms := pp.vertexUniforms,
            fragmentUniforms := pp.fragmentUniforms,
            vertexAttribs := pp.vertexAttribs,
            streamFlags := pp.streamFlags }
        (.ok (some prog),
         { s1 with
           nextProgId := s1.nextProgId + 1,
           hotloadFiles :=
             (env.fileDeps prog).foldl
               (fun m p => addProgramFileDependency m prog.id p) s1.hotloadFiles })

/-- `CShaderManager::LoadProgram`: cache lookup by `(name, defines)`; a hit
returns the stored handle (even a null failure handle); a miss constructs,
logging and storing a null handle on failure, and stores the result either
way.  `.error` models the process-fatal authoring diagnostic. -/
def loadProgram (env : ManagerEnv) (s : ShaderManagerState) (name : String)
    (defines : CShaderDefines) :
    Except String (Option Program) × ShaderManagerState :=
  let key : CacheKey := { name := name, defines := defines }
  match findCached s.programCache key with
  | some h => (.ok h, s)
  | none =>
    match newProgramRun env s name defines with
    | (.error d, s1) => (.error d, s1)
    | (.ok none, s1) =>
      let s2 := { s1 with log := s1.log ++ ["Failed to load shader '" ++ name ++ "'"] }
      (.ok none, { s2 with programCache := s2.programCache ++ [(key, none)] })
    | (.ok (some p), s1) =>
      (.ok (some p), { s1 with programCache := s1.programCache ++ [(key, some p)] })

/-- The per-pass loop of `NewEffect`, stateful part: build each pass's
descriptor and defines, emit the pass's log lines, then load the named
program with the fully layered define set. -/
def buildPasses (env : ManagerEnv) :
    List XMBElement → CShaderDefines → ShaderManagerState →
    Except String (List ShaderPass) × ShaderManagerState
  | [], _, s => (.ok [], s)
  | c :: rest, techDefines, s =>
    if c.nodeName = "pass" then
      let acc := processPass env.benv techDefines env.defaultDesc c
      let s1 := { s with log := s.log ++ acc.log }
      match loadProgram env s1 (getAttr c "shader") acc.passDefines with
      | (.error d, s2) => (.error d, s2)
      | (.ok prog, s2) =>
        match buildPasses env rest techDefines s2 with
        | (.error d, s3) => (.error d, s3)
        | (.ok ps, s3) =>
          (.ok ({ pipelineStateDesc := acc.desc, shader := prog } :: ps), s3)
    else buildPasses env rest techDefines s

/-- `CShaderManager::NewEffect` on an already-loaded document: filter the
usable techniques (evaluating every candidate), fail when none is usable
(`debug_warn` and `return false` in the source), otherwise collect the first
usable candidate's defines and sort flag and build its passes. -/
def newEffectFromRoot (env : ManagerEnv) (s : ShaderManagerState)
    (baseDefines : CShaderDefines) (root : XMBElement) :
    Except String (Option CShaderTechnique) × ShaderManagerState :=
  let usable := (collectUsableTechs env.venv (env.tcond baseDefines) root.children).1
  match usable with
  | [] => (.ok none, s)
  | tech0 :: _ =>
    let td := techDefinesAndSort baseDefines tech0
    match buildPasses env tech0.children td.1 s with
    | (.error d, s2) => (.error d, s2)
    | (.ok ps, s2) =>
      (.ok (some { passes := ps, sortByDistance := td.2 }), s2)

/-- `CShaderManager::NewEffect`: read the effect document (counted as a file
read; missing document is a load failure), then resolve it. -/
def newEffectRun (env : ManagerEnv) (s : ShaderManagerState) (name : String)
    (defines : CShaderDefines) :
    Except String (Option CShaderTechnique) × ShaderManagerState :=
  let s1 := { s with fileReads := s.fileReads + 1 }
  match env.effectDocs name with
  | none => (.ok none, s1)
  | some root => newEffectFromRoot env s1 defines root

/-- `CShaderManager::LoadEffect`: cache lookup by `(name, defines)`; a hit
returns the stored handle (even a null failure handle); a miss resolves,
logging and storing a null handle on failure, and stores the result either
way. -/
def loadEffect (env : ManagerEnv) (s : ShaderManagerState) (name : String)
    (defines : CShaderDefines) :
    Except String (Option CShaderTechnique) × ShaderManagerState :=
  let key : EffectCacheKey := { name := name, defines := defines }
  match findCached s.effectCache key with
  | some h => (.ok h, s)
  | none =>
    match newEffectRun env s name defines with
    | (.error d, s1) => (.error d, s1)
    | (.ok none, s1) =>
      let s2 := { s1 with log := s1.log ++ ["Failed to load effect '" ++ name ++ "'"] }
      (.ok none, { s2 with effectCache := s2.effectCache ++ [(key, none)] })
    | (.ok (some t), s1) =>
      (.ok (some t), { s1 with effectCache := s1.effectCache ++ [(key, some t)] })

/-! ## Derived notions used by the verification statements -/

/-- Whether a technique child is a `<define>` tag. -/
def isDefineEl (c : XMBElement) : Bool := c.nodeName = "define"

/-- Whether a technique child is a `<pass>` tag. -/
def isPassEl (c : XMBElement) : Bool := c.nodeName = "pass"

/-- The value of the last `<define>` for name `n` among the given elements
(`none` when there is no such define). -/
def lastDefVal (n : String) : List XMBElement → Option String
  | [] => none
  | c :: rest =>
    match lastDefVal n rest with
    | some v => some v
    | none =>
      if c.nodeName = "define" ∧ getAttr c "name" = n then some (getAttr c "value")
      else none

/-- The value of the last pass-level `<define>` for name `n` inside a pass. -/
def lastPassDefine (p : XMBElement) (n : String) : Option String :=
  lastDefVal n p.children

/-- A pass child that is a `<depth>` tag carrying only `test` attributes. -/
def depthOnlyTest (c : XMBElement) : Prop :=
  c.nodeName = "depth" ∧ ∀ a ∈ c.attrs, a.1 = "test"

/-- All descriptor fields other than depth-test-enable agree with the
default descriptor: cull/rasterization state, blend state, the whole stencil
state, and the remaining depth fields. -/
def sparsePreserved (dflt d : GraphicsPipelineStateDesc) : Prop :=
  d.rasterizationState = dflt.rasterizationState ∧
  d.blendState = dflt.blendState ∧
  d.depthStencilState.stencilTestEnabled = dflt.depthStencilState.stencilTestEnabled ∧
  d.depthStencilState.stencilReference = dflt.depthStencilState.stencilReference ∧
  d.depthStencilState.stencilReadMask = dflt.depthStencilState.stencilReadMask ∧
  d.depthStencilState.stencilWriteMask = dflt.depthStencilState.stencilWriteMask ∧
  d.depthStencilState.stencilFrontFace = dflt.depthStencilState.stencilFrontFace ∧
  d.depthStencilState.stencilBackFace = dflt.depthStencilState.stencilBackFace ∧
  d.depthStencilState.depthCompareOp = dflt.depthStencilState.depthCompareOp ∧
  d.depthStencilState.depthWriteEnabled = dflt.depthStencilState.depthWriteEnabled

/-- Every dependent set in the hotload map is duplicate-free (the invariant
`std::set` maintains). -/
def hotloadWF (m : HotloadFilesMap) : Prop := ∀ e ∈ m, e.2.Nodup

/-- A program description document whose only stage content is a single
vertex `<attrib>` with the given semantics string. -/
def attribOnlyDoc (nm : String) (ats : List (String × String))
    (file aname str : String) : XMBElement :=
  XMBElement.mk nm ats
    [XMBElement.mk "vertex" [("file", file)]
      [XMBElement.mk "attrib" [("name", aname), ("semantics", str)] []]]

/-! ## Concrete fixtures for witnesses and counterexamples -/

/-- A trivial backend-parser environment. -/
def benv0 : BackendEnv :=
  { parseBlendFactor := fun _ => 0, parseBlendOp := fun _ => 0,
    parseCullMode := fun _ => 0, parseFrontFace := fun _ => 0,
    parsePolygonMode := fun _ => 0, parseCompareOp := fun _ => 0,
    parseStencilOp := fun _ => 0, parseColor := fun _ => none }

/-- A concrete default pipeline descriptor. -/
def desc0 : GraphicsPipelineStateDesc :=
  { blendState :=
      { enabled := false, srcColorBlendFactor := 0, srcAlphaBlendFactor := 0,
        dstColorBlendFactor := 0, dstAlphaBlendFactor := 0,
        colorBlendOp := 0, alphaBlendOp := 0, constant := 0, colorWriteMask := 15 },
    rasterizationState := { cullMode := 1, frontFace := 0, polygonMode := 0 },
    depthStencilState :=
      { depthTestEnabled := true, depthCompareOp := 2, depthWriteEnabled := true,
        stencilTestEnabled := false, stencilReference := 0,
        stencilReadMask := 255, stencilWriteMask := 255,
        stencilFrontFace := { compareOp := 7, failOp := 0, passOp := 0, depthFailOp := 0 },
        stencilBackFace := { compareOp := 7, failOp := 0, passOp := 0, depthFailOp := 0 } } }

/-- A concrete video environment (GL backend, ARB capability present). -/
def venv0 : VideoEnv := { backend := Backend.GL, arbShaders := true }

/-- A conditional evaluator under which only the context string "B" holds. -/
def tc0 : String → Bool := fun s => s = "B"

/-- First candidate technique: one `<require context="A">` (fails under
`tc0`). -/
def t1c : XMBElement :=
  XMBElement.mk "tech" [] [XMBElement.mk "require" [("context", "A")] []]

/-- Second candidate technique: no predicates (usable). -/
def t2c : XMBElement := XMBElement.mk "tech" [] []

/-- Third candidate technique: one `<require context="B">` (passes under
`tc0`). -/
def t3c : XMBElement :=
  XMBElement.mk "tech" [] [XMBElement.mk "require" [("context", "B")] []]

/-- A manager environment with an empty virtual filesystem. -/
def env0 : ManagerEnv :=
  { progDocs := fun _ => none, effectDocs := fun _ => none,
    validateProg := fun _ => true, tcond := fun _ _ => true,
    gles := false, venv := venv0, benv := benv0, defaultDesc := desc0,
    fileDeps := fun _ => [] }

/-- The freshly constructed manager state: empty caches, empty hotload map,
empty log. -/
def st0 : ShaderManagerState :=
  { programCache := [], effectCache := [], hotloadFiles := [], log := [],
    fileReads := 0, nextProgId := 0 }

/-- A concrete pass accumulator for exercising single pass elements. -/
def acc0 : PassAcc := { passDefines := [], desc := desc0, log := [] }

/-! ## C8: color tag resets and rebuilds the write mask -/

/-- C8: for every pass element that is a `<color>` tag, the resulting color
write mask is reset and rebuilt to exactly the channels the tag specifies: a
channel is enabled iff its attribute equals "TRUE" (absent attributes read as
the empty string and disable the channel), regardless of the incoming
descriptor's mask. -/
theorem c8_color_write_mask_rebuilt (benv : BackendEnv) (acc : PassAcc)
    (el : XMBElement) (h : el.nodeName = "color") :
    (processPassElement benv acc el).desc.blendState.colorWriteMask =
      ((if getAttr el "mask_red" = "TRUE" then ColorWriteMaskRED else 0) |||
       (if getAttr el "mask_green" = "TRUE" then ColorWriteMaskGREEN else 0) |||
       (if getAttr el "mask_blue" = "TRUE" then ColorWriteMaskBLUE else 0) |||
       (if getAttr el "mask_alpha" = "TRUE" then ColorWriteMaskALPHA else 0)) := by
  simp [processPassElement, processColorEl, h]
  split_ifs <;> rfl

/-- Witness for C8 at a concrete `<color mask_red="TRUE">` element. -/
theorem c8_witness :
    (processPassElement benv0 acc0
        (XMBElement.mk "color" [("mask_red", "TRUE")] [])).desc.blendState.colorWriteMask = 1 := by
  have h := c8_color_write_mask_rebuilt benv0 acc0
    (XMBElement.mk "color" [("mask_red", "TRUE")] []) rfl
  simpa [getAttr, XMBElement.attrs, ColorWriteMaskRED] using h

/-! Projection helpers for the depth/stencil step functions. -/

theorem dApplyFunc_depthTestEnabled (benv : BackendEnv) (el : XMBElement)
    (ds : DepthStencilStateDesc) :
    (dApplyFunc benv el ds).depthTestEnabled = ds.depthTestEnabled := by
  unfold dApplyFunc; split <;> rfl

theorem dApplyMask_depthTestEnabled (el : XMBElement) (ds : DepthStencilStateDesc) :
    (dApplyMask el ds).depthTestEnabled = ds.depthTestEnabled := by
  unfold dApplyMask; split <;> rfl

theorem sApplyReference_stencilTestEnabled (el : XMBElement) (ds : DepthStencilStateDesc) :
    (sApplyReference el ds).stencilTestEnabled = ds.stencilTestEnabled := by
  unfold sApplyReference; split <;> rfl

theorem sApplyReadMask_stencilTestEnabled (el : XMBElement) (ds : DepthStencilStateDesc) :
    (sApplyReadMask el ds).stencilTestEnabled = ds.stencilTestEnabled := by
  unfold sApplyReadMask; split <;> rfl

theorem sApplyWriteMask_stencilTestEnabled (el : XMBElement) (ds : DepthStencilStateDesc) :
    (sApplyWriteMask el ds).stencilTestEnabled = ds.stencilTestEnabled := by
  unfold sApplyWriteMask; split <;> rfl

theorem sApplyCompare_stencilTestEnabled (benv : BackendEnv) (el : XMBElement)
    (ds : DepthStencilStateDesc) :
    (sApplyCompare benv el ds).stencilTestEnabled = ds.stencilTestEnabled := by
  unfold sApplyCompare; split <;> rfl

theorem sApplyFail_stencilTestEnabled (benv : BackendEnv) (el : XMBElement)
    (ds : DepthStencilStateDesc) :
    (sApplyFail benv el ds).stencilTestEnabled = ds.stencilTestEnabled := by
  unfold sApplyFail; split <;> rfl

theorem sApplyPass_stencilTestEnabled (benv : BackendEnv) (el : XMBElement)
    (ds : DepthStencilStateDesc) :
    (sApplyPass benv el ds).stencilTestEnabled = ds.stencilTestEnabled := by
  unfold sApplyPass; split <;> rfl

theorem sApplyDepthFail_stencilTestEnabled (benv : BackendEnv) (el : XMBElement)
    (ds : DepthStencilStateDesc) :
    (sApplyDepthFail benv el ds).stencilTestEnabled = ds.stencilTestEnabled := by
  unfold sApplyDepthFail; split <;> rfl

/-! ## C9: inconsistent case sensitivity of the depth tag -/

set_option maxRecDepth 4000 in
/-- C9: the depth tag's `test` attribute enables depth testing iff its value
is exactly "TRUE" (as the stencil tag's `test` also does), while the depth
tag's `mask` attribute enables depth writes iff its value is exactly the
lowercase "true"; consequently `mask="TRUE"` sets depth writes to
disabled. -/
theorem c9_depth_mask_case_sensitivity :
    (∀ (benv : BackendEnv) (acc : PassAcc) (el : XMBElement),
       el.nodeName = "depth" → getAttr el "test" ≠ "" →
       (processPassElement benv acc el).desc.depthStencilState.depthTestEnabled =
         decide (getAttr el "test" = "TRUE")) ∧
    (∀ (benv : BackendEnv) (acc : PassAcc) (el : XMBElement),
       el.nodeName = "depth" → getAttr el "mask" ≠ "" →
       (processPassElement benv acc el).desc.depthStencilState.depthWriteEnabled =
         decide (getAttr el "mask" = "true")) ∧
    (∀ (benv : BackendEnv) (acc : PassAcc) (el : XMBElement),
       el.nodeName = "stencil" → getAttr el "test" ≠ "" →
       (processPassElement benv acc el).desc.depthStencilState.stencilTestEnabled =
         decide (getAttr el "test" = "TRUE")) ∧
    (∀ (benv : BackendEnv) (acc : PassAcc) (el : XMBElement),
       el.nodeName = "depth" → getAttr el "mask" = "TRUE" →
       (processPassElement benv acc el).desc.depthStencilState.depthWriteEnabled = false) := by
  refine ⟨?_, ?_, ?_, ?_⟩
  · intro benv acc el h ht
    simp [processPassElement, processDepthEl, h, dApplyMask_depthTestEnabled,
      dApplyFunc_depthTestEnabled, dApplyTest, ht]
  · intro benv acc el h hm
    simp [processPassElement, processDepthEl, h, dApplyMask, hm]
  · intro benv acc el h ht
    simp [processPassElement, processStencilEl, h, sApplyDepthFail_stencilTestEnabled,
      sApplyPass_stencilTestEnabled, sApplyFail_stencilTestEnabled,
      sApplyCompare_stencilTestEnabled, sApplyWriteMask_stencilTestEnabled,
      sApplyReadMask_stencilTestEnabled, sApplyReference_stencilTestEnabled,
      sApplyTest, ht]
  · intro benv acc el h hm
    simp [processPassElement, processDepthEl, h, dApplyMask, hm]

/-- Witness for C9 at a concrete `<depth mask="TRUE">` element: depth writes
come out disabled. -/
theorem c9_witness :
    (processPassElement benv0 acc0
        (XMBElement.mk "depth" [("mask", "TRUE")] [])).desc.depthStencilState.depthWriteEnabled =
      false :=
  c9_depth_mask_case_sensitivity.2.2.2 benv0 acc0
    (XMBElement.mk "depth" [("mask", "TRUE")] []) rfl rfl

/-! ## C10: sampler type resolution -/

/-- Counterexample for C10 as stated: on the constrained backend, a
sampler1D fragment uniform does not fall back to the 2D dimensionality with
resolution continuing — under the spec's model of `debug_warn` (a fatal
authoring error on unsupported sampler dimensionality), type resolution
fails with the diagnostic at this concrete input. -/
theorem c10_counterexample :
    samplerTypeOf true "sampler1D" = .error "sampler1D not implemented on GLES" ∧
      parseProgramDoc true (fun _ => true) []
          (XMBElement.mk "program" []
            [XMBElement.mk "fragment" [("file", "f.fs")]
              [XMBElement.mk "uniform"
                [("name", "tex"), ("type", "sampler1D"), ("loc", "0")] []]]) =
        .error "sampler1D not implemented on GLES" := by
  constructor
  · rfl
  · rfl

/-- C10 (amended): a fragment uniform whose `type` string is none of
sampler1D, sampler2D, sampler3D, samplerCube silently resolves to the 2D
dimensionality — no diagnostic, no failure, parsing continues and registers
the uniform; on an unconstrained backend sampler1D and sampler3D resolve to
their own dimensionalities; on the constrained (GLES) backend sampler1D and
sampler3D raise the debug diagnostic, which (being a fatal authoring error
per the spec's model of `debug_warn`) aborts program resolution rather than
falling back. -/
theorem c10_sampler_fallback :
    (∀ (gles : Bool) (t : String), t ∉ samplerNames →
        samplerTypeOf gles t = .ok GL_TEXTURE_2D) ∧
    samplerTypeOf false "sampler1D" = .ok GL_TEXTURE_1D ∧
    samplerTypeOf false "sampler3D" = .ok GL_TEXTURE_3D ∧
    samplerTypeOf true "sampler1D" = .error "sampler1D not implemented on GLES" ∧
    samplerTypeOf true "sampler3D" = .error "sampler3D not implemented on GLES" ∧
    (∀ (tc : String → Bool) (defines : CShaderDefines) (nm ffile uname uloc : String)
       (ats : List (String × String)),
       parseProgramDoc false tc defines
           (XMBElement.mk nm ats
             [XMBElement.mk "fragment" [("file", ffile)]
               [XMBElement.mk "uniform"
                 [("name", uname), ("type", "sampler2DShadow"), ("loc", uloc)] []]]) =
           .ok { vertexFile := "", fragmentFile := "shaders/" ++ ffile, defines := defines,
                 vertexUniforms := [], vertexAttribs := [], streamFlags := 0,
                 fragmentUniforms := [(uname, (strToInt uloc, GL_TEXTURE_2D))] } ∧
         parseProgramDoc true tc defines
           (XMBElement.mk nm ats
             [XMBElement.mk "fragment" [("file", ffile)]
               [XMBElement.mk "uniform"
                 [("name", uname), ("type", "sampler1D"), ("loc", uloc)] []]]) =
           .error "sampler1D not implemented on GLES") := by
  refine ⟨?_, rfl, rfl, rfl, rfl, ?_⟩
  · intro gles t ht
    simp only [samplerNames, List.mem_cons, List.mem_singleton] at ht
    push_neg at ht
    obtain ⟨h1, h2, h3, h4⟩ := ht
    simp [samplerTypeOf, h1, h2, h3, h4]
  · intro tc defines nm ffile uname uloc ats
    constructor <;>
      simp [parseProgramDoc, processRootChildren, processRootChild, processFragmentParams,
        processFragmentParam, samplerTypeOf, getAttr, XMBElement.nodeName,
        XMBElement.children, XMBElement.attrs, setAssoc, List.lookup]

/-- Witness for C10 (amended) at the unlisted type string "sampler2DShadow". -/
theorem c10_witness : samplerTypeOf false "sampler2DShadow" = .ok GL_TEXTURE_2D :=
  c10_sampler_fallback.1 false "sampler2DShadow" (by decide)

/-! ## C7: unrecognized attribute semantics abort resolution -/

theorem parseAttribSemantics_unrecognized (str : String)
    (h : str ∉ recognizedSemantics) :
    ParseAttribSemantics str = .error "Invalid attribute semantics" := by
  simp only [recognizedSemantics, List.mem_cons, List.mem_singleton, not_or] at h
  obtain ⟨h1, h2, h3, h4, h5, h6, h7, h8, h9, h10, h11, h12, h13, h14, h15, h16⟩ := h
  simp [ParseAttribSemantics, h1, h2, h3, h4, h5, h6, h7, h8, h9, h10, h11, h12, h13,
    h14, h15, h16]

/-- C7: a vertex `<attrib>` whose semantics string is not one of the
recognized names (the fixed gl_* slots or the three CustomAttribute slots) is
a fatal authoring error: `ParseAttribSemantics` yields the diagnostic, and
program resolution aborts with that diagnostic instead of producing (or
caching) a program. -/
theorem c7_unrecognized_semantics_fatal :
    (∀ str, str ∉ recognizedSemantics →
       ParseAttribSemantics str = .error "Invalid attribute semantics") ∧
    (∀ (env : ManagerEnv) (s : ShaderManagerState) (name : String)
       (defines : CShaderDefines) (nm file aname str : String)
       (ats : List (String × String)),
       str ∉ recognizedSemantics →
       env.progDocs name = some (attribOnlyDoc nm ats file aname str) →
       findCached s.programCache { name := name, defines := defines } = none →
       env.validateProg (attribOnlyDoc nm ats file aname str) = true →
       (loadProgram env s name defines).1 = .error "Invalid attribute semantics" ∧
       (loadProgram env s name defines).2.programCache = s.programCache) := by
  refine ⟨parseAttribSemantics_unrecognized, ?_⟩
  intro env s name defines nm file aname str ats hstr hdoc hmiss hval
  have hparse : ParseAttribSemantics str = .error "Invalid attribute semantics" :=
    parseAttribSemantics_unrecognized str hstr
  have hpp : parseProgramDoc env.gles (env.tcond defines) defines
      (attribOnlyDoc nm ats file aname str) = .error "Invalid attribute semantics" := by
    simp [parseProgramDoc, attribOnlyDoc, processRootChildren, processRootChild,
      processVertexParams, processVertexParam, getAttr, XMBElement.nodeName,
      XMBElement.children, XMBElement.attrs, List.lookup, hparse]
  have hnew : newProgramRun env s name defines =
      (.error "Invalid attribute semantics", { s with fileReads := s.fileReads + 1 }) := by
    simp [newProgramRun, hdoc, hval, hpp]
  simp [loadProgram, hmiss, hnew]

/-- Witness for C7 at the concrete semantics string "bogus". -/
theorem c7_witness :
    (loadProgram
        { env0 with
          progDocs := fun m =>
            if m = "p" then some (attribOnlyDoc "program" [] "v.vs" "a" "bogus") else none }
        st0 "p" []).1 = .error "Invalid attribute semantics" :=
  (c7_unrecognized_semantics_fatal.2
    { env0 with
      progDocs := fun m =>
        if m = "p" then some (attribOnlyDoc "program" [] "v.vs" "a" "bogus") else none }
    st0 "p" [] "program" "v.vs" "a" "bogus" [] (by decide) (by simp) rfl rfl).1

/-! ## C5: hotload tracker -/

theorem addProgramFileDependency_wf (m : HotloadFilesMap) (P : Nat) (F : String)
    (h : hotloadWF m) : hotloadWF (addProgramFileDependency m P F) := by
  induction m with
  | nil =>
    intro e he
    simp [addProgramFileDependency] at he
    simp [he]
  | cons kv t ih =>
    obtain ⟨p, ids⟩ := kv
    have hids : ids.Nodup := h (p, ids) (by simp)
    have ht : hotloadWF t := fun e he => h e (by simp [he])
    intro e he
    simp only [addProgramFileDependency] at he
    by_cases hp : p = F
    · simp [hp] at he
      rcases he with he | he
      · subst he
        by_cases hP : P ∈ ids
        · simpa [hP] using hids
        · simp [hP]
          simpa [List.concat_eq_append] using List.Nodup.concat hP hids
      · exact ht e he
    · simp [hp] at he
      rcases he with he | he
      · subst he; exact hids
      · exact ih ht e he

theorem findCached_addProgramFileDependency (m : HotloadFilesMap) (P : Nat) (F : String) :
    ∃ ids, findCached (addProgramFileDependency m P F) F = some ids ∧ P ∈ ids ∧
      (hotloadWF m → ids.Nodup) := by
  induction m with
  | nil =>
    refine ⟨[P], ?_, ?_, ?_⟩ <;> simp [addProgramFileDependency, findCached]
  | cons kv t ih =>
    obtain ⟨p, ids⟩ := kv
    by_cases hp : p = F
    · by_cases hP : P ∈ ids
      · refine ⟨ids, ?_, hP, ?_⟩
        · simp [addProgramFileDependency, findCached, hp, hP]
        · intro h; exact h (p, ids) (by simp)
      · refine ⟨ids ++ [P], ?_, by simp, ?_⟩
        · simp [addProgramFileDependency, findCached, hp, hP]
        · intro h
          simpa [List.concat_eq_append] using List.Nodup.concat hP (h (p, ids) (by simp))
    · obtain ⟨ids1, h1, h2, h3⟩ := ih
      refine ⟨ids1, ?_, h2, ?_⟩
      · simp [addProgramFileDependency, findCached, hp, h1]
      · intro h
        exact h3 (fun e he => h e (by simp [he]))

/-- C5: the hotload tracker.  Notifying a path with no registered entry is a
successful no-op; after registering program `P` under file `F`, a
notification for `F` reloads `P` exactly once; a dependent whose weak
reference no longer resolves is silently skipped (never reloaded, and the
notification still succeeds totally); and registering the same program under
the same path twice is idempotent. -/
theorem c5_hotload_tracker :
    (∀ (alive : Nat → Bool) (m : HotloadFilesMap) (path : String),
       findCached m path = none → reloadChangedFile alive m path = (Status.ok, [])) ∧
    (∀ (alive : Nat → Bool) (m : HotloadFilesMap) (P : Nat) (F : String),
       hotloadWF m → alive P = true →
       ((reloadChangedFile alive (addProgramFileDependency m P F) F).2.count P = 1)) ∧
    (∀ (alive : Nat → Bool) (m : HotloadFilesMap) (F : String) (P : Nat),
       alive P = false → P ∉ (reloadChangedFile alive m F).2) ∧
    (∀ (m : HotloadFilesMap) (P : Nat) (F : String),
       addProgramFileDependency (addProgramFileDependency m P F) P F =
         addProgramFileDependency m P F) ∧
    (∀ (alive : Nat → Bool) (m : HotloadFilesMap) (path : String),
       (reloadChangedFile alive m path).1 = Status.ok) := by
  refine ⟨?_, ?_, ?_, ?_, ?_⟩
  · intro alive m path h
    simp [reloadChangedFile, h]
  · intro alive m P F hwf halive
    obtain ⟨ids, h1, h2, h3⟩ := findCached_addProgramFileDependency m P F
    simp only [reloadChangedFile, h1]
    rw [List.count_eq_one_of_mem ((h3 hwf).filter alive)]
    exact List.mem_filter.mpr ⟨h2, halive⟩
  · intro alive m F P hdead
    simp only [reloadChangedFile]
    cases h : findCached m F with
    | none => simp
    | some ids =>
      simp only
      intro hmem
      exact absurd (List.of_mem_filter hmem) (by simp [hdead])
  · intro m P F
    induction m with
    | nil => simp [addProgramFileDependency]
    | cons kv t ih =>
      obtain ⟨p, ids⟩ := kv
      by_cases hp : p = F
      · by_cases hP : P ∈ ids
        · simp [addProgramFileDependency, hp, hP]
        · simp [addProgramFileDependency, hp, hP]
      · simp [addProgramFileDependency, hp, ih]
  · intro alive m path
    cases h : findCached m path <;> simp [reloadChangedFile, h]

/-- Witness for C5: registering program 0 under "f" in the empty map and
notifying "f" reloads it exactly once. -/
theorem c5_witness :
    (reloadChangedFile (fun _ => true) (addProgramFileDependency [] 0 "f") "f").2.count 0 = 1 :=
  c5_hotload_tracker.2.1 (fun _ => true) [] 0 "f" (by intro e he; simp at he) rfl

/-! ## C4: sparse override semantics -/

theorem lookup_none_of_keys (l : List (String × String)) (t k : String)
    (h : ∀ a ∈ l, a.1 = t) (hk : k ≠ t) : l.lookup k = none := by
  induction l with
  | nil => rfl
  | cons a rest ih =>
    have ha : a.1 = t := h a (by simp)
    have hkey : (k == a.1) = false := by
      rw [ha]; exact beq_false_of_ne hk
    simp only [List.lookup, hkey]
    exact ih (fun b hb => h b (by simp [hb]))

theorem getAttr_eq_empty (e : XMBElement) (t k : String)
    (h : ∀ a ∈ e.attrs, a.1 = t) (hk : k ≠ t) : getAttr e k = "" := by
  simp [getAttr, lookup_none_of_keys e.attrs t k h hk]

theorem processDepthEl_only_test (benv : BackendEnv)
    (desc : GraphicsPipelineStateDesc) (el : XMBElement)
    (hattr : ∀ a ∈ el.attrs, a.1 = "test") :
    ∃ b, processDepthEl benv desc el =
      { desc with depthStencilState :=
          { desc.depthStencilState with depthTestEnabled := b } } := by
  have hf : getAttr el "func" = "" := getAttr_eq_empty el "test" "func" hattr (by decide)
  have hm : getAttr el "mask" = "" := getAttr_eq_empty el "test" "mask" hattr (by decide)
  by_cases htest : getAttr el "test" = ""
  · refine ⟨desc.depthStencilState.depthTestEnabled, ?_⟩
    simp [processDepthEl, dApplyMask, dApplyFunc, dApplyTest, hf, hm, htest]
  · refine ⟨decide (getAttr el "test" = "TRUE"), ?_⟩
    simp [processDepthEl, dApplyMask, dApplyFunc, dApplyTest, hf, hm, htest]

theorem processPassElement_depthOnly_preserves (benv : BackendEnv) (dflt : GraphicsPipelineStateDesc)
    (acc : PassAcc) (c : XMBElement) (hc : depthOnlyTest c)
    (h : sparsePreserved dflt acc.desc) :
    sparsePreserved dflt (processPassElement benv acc c).desc := by
  obtain ⟨hname, hattr⟩ := hc
  obtain ⟨b, hb⟩ := processDepthEl_only_test benv acc.desc c hattr
  simp only [processPassElement, hname]
  norm_num
  rw [hb]
  obtain ⟨h1, h2, h3, h4, h5, h6, h7, h8, h9, h10⟩ := h
  exact ⟨h1, h2, h3, h4, h5, h6, h7, h8, h9, h10⟩

theorem foldl_depthOnly_preserves (benv : BackendEnv) (dflt : GraphicsPipelineStateDesc) :
    ∀ (children : List XMBElement) (acc : PassAcc),
      sparsePreserved dflt acc.desc → (∀ c ∈ children, depthOnlyTest c) →
      sparsePreserved dflt ((children.foldl (processPassElement benv) acc)).desc := by
  intro children
  induction children with
  | nil => intro acc h _; simpa using h
  | cons c rest ih =>
    intro acc h hall
    simp only [List.foldl_cons]
    exact ih (processPassElement benv acc c)
      (processPassElement_depthOnly_preserves benv dflt acc c (hall c (by simp)) h)
      (fun d hd => hall d (by simp [hd]))

/-- C4: the pipeline state descriptor starts from the engine default (an
empty pass leaves it exactly equal to the default), and a pass whose markup
consists only of `<depth test=...>` overrides leaves cull/rasterization
state, blend state, the whole stencil state and the remaining depth fields
exactly at the default descriptor's values. -/
theorem c4_sparse_override :
    (∀ (benv : BackendEnv) (techD : CShaderDefines) (dflt : GraphicsPipelineStateDesc)
       (nm : String) (ats : List (String × String)),
       (processPass benv techD dflt (XMBElement.mk nm ats [])).desc = dflt) ∧
    (∀ (benv : BackendEnv) (techD : CShaderDefines) (dflt : GraphicsPipelineStateDesc)
       (passEl : XMBElement),
       (∀ c ∈ passEl.children, depthOnlyTest c) →
       sparsePreserved dflt (processPass benv techD dflt passEl).desc) := by
  constructor
  · intro benv techD dflt nm ats
    rfl
  · intro benv techD dflt passEl hall
    exact foldl_depthOnly_preserves benv dflt passEl.children
      { passDefines := techD, desc := dflt, log := [] }
      ⟨rfl, rfl, rfl, rfl, rfl, rfl, rfl, rfl, rfl, rfl⟩ hall

/-- Witness for C4 at a concrete pass containing only
`<depth test="FALSE">`. -/
theorem c4_witness :
    sparsePreserved desc0
      (processPass benv0 [] desc0
        (XMBElement.mk "pass" []
          [XMBElement.mk "depth" [("test", "FALSE")] []])).desc :=
  c4_sparse_override.2 benv0 [] desc0
    (XMBElement.mk "pass" [] [XMBElement.mk "depth" [("test", "FALSE")] []])
    (by
      intro c hc
      simp [XMBElement.children] at hc
      subst hc
      exact ⟨rfl, by decide⟩)

/-! ## C3: define layering -/

theorem lookup_addDefine (d : CShaderDefines) (m v n : String) :
    lookupDef (addDefine d m v) n = if n = m then some v else lookupDef d n := by
  induction d with
  | nil =>
    rcases eq_or_ne n m with h | h
    · simp [addDefine, lookupDef, h]
    · simp [addDefine, lookupDef, h, Ne.symm h]
  | cons kv t ih =>
    obtain ⟨k, w⟩ := kv
    rcases lt_trichotomy m k with hlt | heq | hgt
    · rcases eq_or_ne n m with h | h
      · simp [addDefine, lookupDef, hlt, h]
      · simp [addDefine, lookupDef, hlt, h, Ne.symm h]
    · subst heq
      rcases eq_or_ne n m with h | h
      · simp [addDefine, lookupDef, h]
      · simp [addDefine, lookupDef, h, Ne.symm h]
    · rcases eq_or_ne k n with h | h
      · subst h
        simp [addDefine, lookupDef, lt_asymm hgt, ne_of_gt hgt, ne_of_lt hgt]
      · simp [addDefine, lookupDef, lt_asymm hgt, ne_of_gt hgt, h, ih]

theorem processPassElement_passDefines (benv : BackendEnv) (acc : PassAcc) (el : XMBElement) :
    (processPassElement benv acc el).passDefines =
      if el.nodeName = "define" then
        addDefine acc.passDefines (getAttr el "name") (getAttr el "value")
      else acc.passDefines := by
  simp only [processPassElement]
  split_ifs <;> rfl

theorem foldl_passDefines (benv : BackendEnv) :
    ∀ (cs : List XMBElement) (acc : PassAcc),
      (cs.foldl (processPassElement benv) acc).passDefines =
        cs.foldl
          (fun d c =>
            if c.nodeName = "define" then addDefine d (getAttr c "name") (getAttr c "value")
            else d)
          acc.passDefines := by
  intro cs
  induction cs with
  | nil => intro acc; rfl
  | cons c rest ih =>
    intro acc
    simp only [List.foldl_cons, ih, processPassElement_passDefines]

theorem lookup_foldl_defines :
    ∀ (cs : List XMBElement) (d : CShaderDefines) (n : String),
      lookupDef
        (cs.foldl
          (fun d c =>
            if c.nodeName = "define" then addDefine d (getAttr c "name") (getAttr c "value")
            else d)
          d) n =
        match lastDefVal n cs with
        | some v => some v
        | none => lookupDef d n := by
  intro cs
  induction cs with
  | nil => intro d n; rfl
  | cons c rest ih =>
    intro d n
    simp only [List.foldl_cons, ih, lastDefVal]
    cases hlast : lastDefVal n rest with
    | some v => rfl
    | none =>
      simp only
      by_cases hdef : c.nodeName = "define"
      · by_cases hn : getAttr c "name" = n
        · simp [hdef, hn, lookup_addDefine]
        · simp [hdef, hn, lookup_addDefine, Ne.symm hn]
      · simp [hdef]

theorem foldl_pass_append (benv : BackendEnv) (dflt : GraphicsPipelineStateDesc)
    (techD : CShaderDefines) :
    ∀ (cs : List XMBElement) (l : List (PassAcc × String)),
      cs.foldl
        (fun l c =>
          if c.nodeName = "pass" then
            l ++ [(processPass benv techD dflt c, getAttr c "shader")]
          else l)
        l =
      l ++ (cs.filter isPassEl).map
        (fun p => (processPass benv techD dflt p, getAttr p "shader")) := by
  intro cs
  induction cs with
  | nil => intro l; simp
  | cons c rest ih =>
    intro l
    by_cases hp : c.nodeName = "pass" <;>
      simp [List.foldl_cons, List.filter_cons, isPassEl, hp, ih]

theorem techDefines_fst :
    ∀ (cs : List XMBElement) (b : CShaderDefines) (flag : Bool),
      (cs.foldl
        (fun acc c =>
          if c.nodeName = "define" then
            (addDefine acc.1 (getAttr c "name") (getAttr c "value"), acc.2)
          else if c.nodeName = "sort_by_distance" then (acc.1, true)
          else acc)
        (b, flag)).1 =
      (cs.filter isDefineEl).foldl
        (fun d c => addDefine d (getAttr c "name") (getAttr c "value")) b := by
  intro cs
  induction cs with
  | nil => intro b flag; rfl
  | cons c rest ih =>
    intro b flag
    by_cases hd : c.nodeName = "define"
    · simp [List.foldl_cons, List.filter_cons, isDefineEl, hd, ih]
    · by_cases hs : c.nodeName = "sort_by_distance" <;>
        simp [List.foldl_cons, List.filter_cons, isDefineEl, hd, hs, ih]

/-- C3: technique-level defines are collected from the `<define>` children
alone (in document order, later writes winning) before passes are processed;
each pass starts from a copy of that set and layers its own defines on top,
so a pass-level define overrides a technique-level one for that pass only
(the resolved lookup is the pass's last define when present, else the
technique-level value), sibling passes are resolved independently from the
same technique-level set, and reordering `<define>` and `<pass>` tags (any
interleaving keeping each kind's relative order) changes no pass's resolved
defines. -/
theorem c3_define_layering :
    (∀ (techD : CShaderDefines) (p : XMBElement) (n : String),
       lookupDef (resolvePassDefines techD p) n =
         match lastPassDefine p n with
         | some v => some v
         | none => lookupDef techD n) ∧
    (∀ (benv : BackendEnv) (dflt : GraphicsPipelineStateDesc) (techD : CShaderDefines)
       (tech : XMBElement),
       techPassesPure benv dflt techD tech =
         (tech.children.filter isPassEl).map
           (fun p => (processPass benv techD dflt p, getAttr p "shader"))) ∧
    (∀ (benv : BackendEnv) (dflt : GraphicsPipelineStateDesc) (techD : CShaderDefines)
       (p : XMBElement),
       (processPass benv techD dflt p).passDefines = resolvePassDefines techD p) ∧
    (∀ (base : CShaderDefines) (nm1 nm2 : String) (ats1 ats2 : List (String × String))
       (ch1 ch2 : List XMBElement) (benv : BackendEnv) (dflt : GraphicsPipelineStateDesc),
       ch1.filter isDefineEl = ch2.filter isDefineEl →
       ch1.filter isPassEl = ch2.filter isPassEl →
       (techDefinesAndSort base (XMBElement.mk nm1 ats1 ch1)).1 =
           (techDefinesAndSort base (XMBElement.mk nm2 ats2 ch2)).1 ∧
         techPassesPure benv dflt (techDefinesAndSort base (XMBElement.mk nm1 ats1 ch1)).1
             (XMBElement.mk nm1 ats1 ch1) =
           techPassesPure benv dflt (techDefinesAndSort base (XMBElement.mk nm2 ats2 ch2)).1
             (XMBElement.mk nm2 ats2 ch2)) := by
  have hdef : ∀ (base : CShaderDefines) (t : XMBElement),
      (techDefinesAndSort base t).1 =
        (t.children.filter isDefineEl).foldl
          (fun d c => addDefine d (getAttr c "name") (getAttr c "value")) base := by
    intro base t
    exact techDefines_fst t.children base false
  refine ⟨?_, ?_, ?_, ?_⟩
  · intro techD p n
    exact lookup_foldl_defines p.children techD n
  · intro benv dflt techD tech
    simpa using foldl_pass_append benv dflt techD tech.children []
  · intro benv dflt techD p
    exact foldl_passDefines benv p.children _
  · intro base nm1 nm2 ats1 ats2 ch1 ch2 benv dflt hdefs hpasses
    have htd : (techDefinesAndSort base (XMBElement.mk nm1 ats1 ch1)).1 =
        (techDefinesAndSort base (XMBElement.mk nm2 ats2 ch2)).1 := by
      rw [hdef, hdef]
      simp only [XMBElement.children]
      rw [hdefs]
    have hmap : ∀ (techD : CShaderDefines) (nm : String) (ats : List (String × String))
        (ch : List XMBElement),
        techPassesPure benv dflt techD (XMBElement.mk nm ats ch) =
          (ch.filter isPassEl).map
            (fun p => (processPass benv techD dflt p, getAttr p "shader")) := by
      intro techD nm ats ch
      have h := foldl_pass_append benv dflt techD ch []
      simpa [techPassesPure, XMBElement.children] using h
    refine ⟨htd, ?_⟩
    rw [hmap, hmap, htd, hpasses]

/-- Witness for C3: swapping a `<define>` past a `<pass>` leaves both the
technique-level defines and every pass's resolution unchanged. -/
theorem c3_witness :
    (techDefinesAndSort []
        (XMBElement.mk "technique" []
          [XMBElement.mk "define" [("name", "X"), ("value", "1")] [],
           XMBElement.mk "pass" [("shader", "basic")] []])).1 =
      (techDefinesAndSort []
        (XMBElement.mk "technique" []
          [XMBElement.mk "pass" [("shader", "basic")] [],
           XMBElement.mk "define" [("name", "X"), ("value", "1")] []])).1 ∧
    techPassesPure benv0 desc0
        (techDefinesAndSort []
          (XMBElement.mk "technique" []
            [XMBElement.mk "define" [("name", "X"), ("value", "1")] [],
             XMBElement.mk "pass" [("shader", "basic")] []])).1
        (XMBElement.mk "technique" []
          [XMBElement.mk "define" [("name", "X"), ("value", "1")] [],
           XMBElement.mk "pass" [("shader", "basic")] []]) =
      techPassesPure benv0 desc0
        (techDefinesAndSort []
          (XMBElement.mk "technique" []
            [XMBElement.mk "pass" [("shader", "basic")] [],
             XMBElement.mk "define" [("name", "X"), ("value", "1")] []])).1
        (XMBElement.mk "technique" []
          [XMBElement.mk "pass" [("shader", "basic")] [],
           XMBElement.mk "define" [("name", "X"), ("value", "1")] []]) :=
  c3_define_layering.2.2.2 [] "technique" "technique" [] []
    [XMBElement.mk "define" [("name", "X"), ("value", "1")] [],
     XMBElement.mk "pass" [("shader", "basic")] []]
    [XMBElement.mk "pass" [("shader", "basic")] [],
     XMBElement.mk "define" [("name", "X"), ("value", "1")] []]
    benv0 desc0 rfl rfl

/-! ## C2: first-usable-wins (with full candidate evaluation) -/

theorem collectUsableTechs_fst (venv : VideoEnv) (tcond : String → Bool) :
    ∀ (l : List XMBElement),
      (collectUsableTechs venv tcond l).1 =
        l.filter (fun t => (techniqueUsableEval venv tcond t).1) := by
  intro l
  induction l with
  | nil => rfl
  | cons t rest ih =>
    cases h : (techniqueUsableEval venv tcond t).1 <;>
      simp [collectUsableTechs, List.filter_cons, ih, h]

theorem collectUsableTechs_snd (venv : VideoEnv) (tcond : String → Bool) :
    ∀ (l : List XMBElement),
      (collectUsableTechs venv tcond l).2 =
        (l.map (fun t => (techniqueUsableEval venv tcond t).2)).flatten := by
  intro l
  induction l with
  | nil => rfl
  | cons t rest ih =>
    simp [collectUsableTechs, ih]

theorem head?_filter_eq_find? {α : Type} (p : α → Bool) :
    ∀ (l : List α), (l.filter p).head? = l.find? p := by
  intro l
  induction l with
  | nil => rfl
  | cons a rest ih =>
    simp only [List.filter_cons, List.find?]
    cases h : p a <;> simp [ih]

/-- C2 (amended): the resolver evaluates the usability predicates of every
candidate in document order (the trace of conditionals handed to
`TestConditional` spans all candidates), collects the usable candidates and
selects the first one; given three candidates where the first fails and the
second passes, the second is selected and the technique is built from it
alone — resolution of the three-candidate document equals resolution of a
document holding only the second candidate — even though the third
candidate's predicates were still evaluated during filtering. -/
theorem c2_first_usable_wins :
    (∀ (venv : VideoEnv) (tcond : String → Bool) (l : List XMBElement),
       (collectUsableTechs venv tcond l).1.head? =
         l.find? (fun t => (techniqueUsableEval venv tcond t).1)) ∧
    (∀ (venv : VideoEnv) (tcond : String → Bool) (l : List XMBElement),
       (collectUsableTechs venv tcond l).2 =
         (l.map (fun t => (techniqueUsableEval venv tcond t).2)).flatten) ∧
    (∀ (venv : VideoEnv) (tcond : String → Bool) (t1 t2 t3 : XMBElement),
       (techniqueUsableEval venv tcond t1).1 = false →
       (techniqueUsableEval venv tcond t2).1 = true →
       (collectUsableTechs venv tcond [t1, t2, t3]).1.head? = some t2) ∧
    (∀ (env : ManagerEnv) (s : ShaderManagerState) (d : CShaderDefines)
       (nm : String) (ats : List (String × String)) (t1 t2 t3 : XMBElement),
       (techniqueUsableEval env.venv (env.tcond d) t1).1 = false →
       (techniqueUsableEval env.venv (env.tcond d) t2).1 = true →
       newEffectFromRoot env s d (XMBElement.mk nm ats [t1, t2, t3]) =
         newEffectFromRoot env s d (XMBElement.mk nm ats [t2])) := by
  refine ⟨?_, collectUsableTechs_snd, ?_, ?_⟩
  · intro venv tcond l
    rw [collectUsableTechs_fst, head?_filter_eq_find?]
  · intro venv tcond t1 t2 t3 h1 h2
    simp [collectUsableTechs, h1, h2]
  · intro env s d nm ats t1 t2 t3 h1 h2
    simp only [newEffectFromRoot, XMBElement.children, collectUsableTechs, h1, h2]
    cases (techniqueUsableEval env.venv (env.tcond d) t3).1 <;> simp

/-- Counterexample for C2 as stated: with three concrete candidates where the
first's `<require context="A">` fails and both later candidates would pass,
the second is selected, yet the third candidate's conditional "B" appears in
the evaluated-conditional trace — the resolver did evaluate the third
candidate's predicate. -/
theorem c2_counterexample :
    (collectUsableTechs venv0 tc0 [t1c, t2c, t3c]).1.head? = some t2c ∧
    "B" ∈ (collectUsableTechs venv0 tc0 [t1c, t2c, t3c]).2 := by
  constructor
  · rfl
  · simp [collectUsableTechs, techniqueUsableEval, requireStep, t1c, t2c, t3c,
      venv0, tc0, getAttr, XMBElement.nodeName, XMBElement.children, XMBElement.attrs,
      List.lookup]

/-- Witness for C2 (amended) at the concrete three-candidate document. -/
theorem c2_witness :
    (collectUsableTechs venv0 tc0 [t1c, t2c, t3c]).1.head? = some t2c :=
  c2_first_usable_wins.2.2.1 venv0 tc0 t1c t2c t3c rfl rfl

/-! ## C6: cache key equality and hashing -/

theorem lookupDef_none_of_not_mem (d : CShaderDefines) (n : String)
    (h : n ∉ d.map Prod.fst) : lookupDef d n = none := by
  induction d with
  | nil => rfl
  | cons a t ih =>
    simp only [List.map_cons, List.mem_cons, not_or] at h
    have ha : a.1 ≠ n := fun hc => h.1 hc.symm
    simp [lookupDef, ha, ih h.2]

/-- The last value paired with key `n` in a pair list. -/
def lastValP (n : String) : List (String × String) → Option String
  | [] => none
  | a :: rest =>
    match lastValP n rest with
    | some v => some v
    | none => if a.1 = n then some a.2 else none

theorem lastValP_none_of_not_mem (n : String) :
    ∀ (l : List (String × String)), n ∉ l.map Prod.fst → lastValP n l = none := by
  intro l
  induction l with
  | nil => intro _; rfl
  | cons a t ih =>
    intro h
    simp only [List.map_cons, List.mem_cons, not_or] at h
    have ha : a.1 ≠ n := fun hc => h.1 hc.symm
    simp [lastValP, ih h.2, ha]

theorem lookup_foldl_add :
    ∀ (l : List (String × String)) (d : CShaderDefines) (n : String),
      lookupDef (l.foldl (fun acc nv => addDefine acc nv.1 nv.2) d) n =
        match lastValP n l with
        | some v => some v
        | none => lookupDef d n := by
  intro l
  induction l with
  | nil => intro d n; rfl
  | cons a rest ih =>
    intro d n
    simp only [List.foldl_cons, ih, lastValP]
    cases hlast : lastValP n rest with
    | some v => rfl
    | none =>
      simp only
      by_cases ha : a.1 = n
      · simp [ha, lookup_addDefine]
      · have hna : n ≠ a.1 := fun hc => ha hc.symm
        simp [ha, lookup_addDefine, hna]

theorem lastValP_eq_lookup (n : String) :
    ∀ (l : List (String × String)), (l.map Prod.fst).Nodup →
      lastValP n l = lookupDef l n := by
  intro l
  induction l with
  | nil => intro _; rfl
  | cons a t ih =>
    intro h
    simp only [List.map_cons, List.nodup_cons] at h
    by_cases ha : a.1 = n
    · subst ha
      simp [lastValP, lookupDef, lastValP_none_of_not_mem a.1 t h.1, ih h.2]
    · simp only [lastValP, lookupDef, ih h.2, if_neg ha]
      cases lookupDef t n <;> simp

theorem lookupDef_perm (l1 l2 : List (String × String)) (hp : l1.Perm l2) :
    (l1.map Prod.fst).Nodup → ∀ n, lookupDef l1 n = lookupDef l2 n := by
  induction hp with
  | nil => intro _ n; rfl
  | cons x h ih =>
    intro hn n
    simp only [List.map_cons, List.nodup_cons] at hn
    simp [lookupDef, ih hn.2 n]
  | swap x y l =>
    intro hn n
    simp only [List.map_cons, List.nodup_cons, List.mem_cons, not_or] at hn
    by_cases hx : x.1 = n
    · by_cases hy : y.1 = n
      · exact absurd (hy.trans hx.symm) hn.1.1
      · simp [lookupDef, hx, hy]
    · simp [lookupDef, hx]
  | trans h12 h23 ih1 ih2 =>
    intro hn n
    exact (ih1 hn n).trans (ih2 ((h12.map Prod.fst).nodup_iff.mp hn) n)

/-- Strictly increasing keys. -/
def sortedKeys (d : CShaderDefines) : Prop :=
  d.Pairwise (fun a b => a.1 < b.1)

theorem mem_addDefine (n v : String) :
    ∀ (d : CShaderDefines) (a : String × String), a ∈ addDefine d n v → a.1 = n ∨ a ∈ d := by
  intro d
  induction d with
  | nil =>
    intro a h
    simp [addDefine] at h
    simp [h]
  | cons b t ih =>
    intro a h
    obtain ⟨k, u⟩ := b
    by_cases h1 : n < k
    · simp only [addDefine, if_pos h1] at h
      rcases List.mem_cons.mp h with h2 | h2
      · exact Or.inl (by rw [h2])
      · exact Or.inr h2
    · by_cases h2 : n = k
      · simp only [addDefine, if_neg h1, if_pos h2] at h
        rcases List.mem_cons.mp h with h3 | h3
        · exact Or.inl (by rw [h3])
        · exact Or.inr (List.mem_cons.mpr (Or.inr h3))
      · simp only [addDefine, if_neg h1, if_neg h2] at h
        rcases List.mem_cons.mp h with h3 | h3
        · exact Or.inr (List.mem_cons.mpr (Or.inl h3))
        · rcases ih a h3 with h4 | h4
          · exact Or.inl h4
          · exact Or.inr (List.mem_cons.mpr (Or.inr h4))

theorem addDefine_sorted (d : CShaderDefines) (n v : String) (h : sortedKeys d) :
    sortedKeys (addDefine d n v) := by
  induction d with
  | nil => simp [addDefine, sortedKeys]
  | cons b t ih =>
    obtain ⟨k, u⟩ := b
    rw [sortedKeys, List.pairwise_cons] at h
    simp only [addDefine]
    split_ifs with h1 h2
    · rw [sortedKeys, List.pairwise_cons]
      refine ⟨?_, List.Pairwise.cons h.1 h.2⟩
      intro b hb
      rcases List.mem_cons.mp hb with hb | hb
      · simp [hb, h1]
      · exact lt_trans h1 (h.1 b hb)
    · rw [sortedKeys, List.pairwise_cons]
      refine ⟨?_, h.2⟩
      intro b hb
      rw [h2]
      exact h.1 b hb
    · rw [sortedKeys, List.pairwise_cons]
      refine ⟨?_, ih h.2⟩
      intro b hb
      rcases mem_addDefine n v t b hb with h3 | h3
      · rw [h3]
        rcases lt_trichotomy n k with h4 | h4 | h4
        · exact absurd h4 h1
        · exact absurd h4 h2
        · exact h4
      · exact h.1 b h3

theorem buildDefines_sorted (l : List (String × String)) :
    sortedKeys (buildDefines l) := by
  have : ∀ (l : List (String × String)) (d : CShaderDefines), sortedKeys d →
      sortedKeys (l.foldl (fun acc nv => addDefine acc nv.1 nv.2) d) := by
    intro l
    induction l with
    | nil => intro d hd; exact hd
    | cons a t ih =>
      intro d hd
      exact ih _ (addDefine_sorted d a.1 a.2 hd)
  exact this l [] (by simp [sortedKeys])

theorem sorted_lookup_ext :
    ∀ (d1 d2 : CShaderDefines), sortedKeys d1 → sortedKeys d2 →
      (∀ n, lookupDef d1 n = lookupDef d2 n) → d1 = d2 := by
  intro d1
  induction d1 with
  | nil =>
    intro d2 _ _ hl
    cases d2 with
    | nil => rfl
    | cons b t2 =>
      have := hl b.1
      simp [lookupDef] at this
  | cons a t1 ih =>
    intro d2 h1 h2 hl
    cases d2 with
    | nil =>
      have := hl a.1
      simp [lookupDef] at this
    | cons b t2 =>
      rw [sortedKeys, List.pairwise_cons] at h1 h2
      have htail1 : lookupDef t1 a.1 = none := by
        apply lookupDef_none_of_not_mem
        intro hmem
        obtain ⟨c, hc, hc1⟩ := List.mem_map.mp hmem
        exact absurd (hc1 ▸ h1.1 c hc) (lt_irrefl a.1)
      have htail2 : lookupDef t2 b.1 = none := by
        apply lookupDef_none_of_not_mem
        intro hmem
        obtain ⟨c, hc, hc1⟩ := List.mem_map.mp hmem
        exact absurd (hc1 ▸ h2.1 c hc) (lt_irrefl b.1)
      have hk : a.1 = b.1 := by
        rcases lt_trichotomy a.1 b.1 with h3 | h3 | h3
        · have ha := hl a.1
          have hbn : lookupDef t2 a.1 = none := by
            apply lookupDef_none_of_not_mem
            intro hmem
            obtain ⟨c, hc, hc1⟩ := List.mem_map.mp hmem
            exact absurd (lt_trans h3 (hc1 ▸ h2.1 c hc)) (lt_irrefl a.1)
          simp [lookupDef, ne_of_gt h3, hbn] at ha
        · exact h3
        · have hb := hl b.1
          have han : lookupDef t1 b.1 = none := by
            apply lookupDef_none_of_not_mem
            intro hmem
            obtain ⟨c, hc, hc1⟩ := List.mem_map.mp hmem
            exact absurd (lt_trans h3 (hc1 ▸ h1.1 c hc)) (lt_irrefl b.1)
          simp [lookupDef, ne_of_gt h3, han] at hb
      have hv : a.2 = b.2 := by
        have := hl a.1
        simp [lookupDef, hk] at this
        exact this
      have htl : t1 = t2 := by
        apply ih t2 h1.2 h2.2
        intro n
        by_cases hn : n = a.1
        · have ht2 : lookupDef t2 a.1 = none := by rw [hk]; exact htail2
          rw [hn, htail1, ht2]
        · have ha1 : a.1 ≠ n := fun hc => hn hc.symm
          have hb1 : b.1 ≠ n := hk ▸ ha1
          have := hl n
          simp [lookupDef, ha1, hb1] at this
          exact this
      obtain ⟨a1, a2⟩ := a
      obtain ⟨b1, b2⟩ := b
      simp only at hk hv
      rw [hk, hv, htl]

theorem buildDefines_perm (l1 l2 : List (String × String)) (hp : l1.Perm l2)
    (hn : (l1.map Prod.fst).Nodup) : buildDefines l1 = buildDefines l2 := by
  apply sorted_lookup_ext _ _ (buildDefines_sorted l1) (buildDefines_sorted l2)
  intro n
  have hn2 : (l2.map Prod.fst).Nodup := (hp.map Prod.fst).nodup_iff.mp hn
  rw [buildDefines, buildDefines, lookup_foldl_add, lookup_foldl_add,
    lastValP_eq_lookup n l1 hn, lastValP_eq_lookup n l2 hn2,
    lookupDef_perm l1 l2 hp hn n]

/-- C6: two effect cache keys are equal (under the key's equality operator)
iff both the name and the define-set components are equal; the key hash is
consistent with that equality; and two define sets built by adding the same
name/value pairs in different insertion orders are identical, so the
resulting keys are equal, hash identically, and hit the same cache entry. -/
theorem c6_cache_key_equality_hash :
    (∀ a b : EffectCacheKey,
       effectCacheKeyEq a b = true ↔ a.name = b.name ∧ a.defines = b.defines) ∧
    (∀ a b : EffectCacheKey,
       effectCacheKeyEq a b = true → effectCacheKeyHash a = effectCacheKeyHash b) ∧
    (∀ (l1 l2 : List (String × String)), l1.Perm l2 → (l1.map Prod.fst).Nodup →
       buildDefines l1 = buildDefines l2) ∧
    (∀ (nm : String) (l1 l2 : List (String × String))
       (cache : List (EffectCacheKey × Option CShaderTechnique)),
       l1.Perm l2 → (l1.map Prod.fst).Nodup →
       effectCacheKeyEq { name := nm, defines := buildDefines l1 }
           { name := nm, defines := buildDefines l2 } = true ∧
         effectCacheKeyHash { name := nm, defines := buildDefines l1 } =
           effectCacheKeyHash { name := nm, defines := buildDefines l2 } ∧
         findCached cache { name := nm, defines := buildDefines l1 } =
           findCached cache { name := nm, defines := buildDefines l2 }) := by
  have heq : ∀ a b : EffectCacheKey,
      effectCacheKeyEq a b = true ↔ a.name = b.name ∧ a.defines = b.defines := by
    intro a b
    simp [effectCacheKeyEq]
  refine ⟨heq, ?_, buildDefines_perm, ?_⟩
  · intro a b h
    obtain ⟨h1, h2⟩ := (heq a b).mp h
    simp [effectCacheKeyHash, h1, h2]
  · intro nm l1 l2 cache hp hn
    have hb := buildDefines_perm l1 l2 hp hn
    rw [hb]
    exact ⟨(heq _ _).mpr ⟨rfl, rfl⟩, rfl, rfl⟩

/-- Witness for C6: the same two defines added in either order yield the same
key and cache behaviour. -/
theorem c6_witness :
    effectCacheKeyEq
        { name := "water", defines := buildDefines [("A", "1"), ("B", "2")] }
        { name := "water", defines := buildDefines [("B", "2"), ("A", "1")] } = true ∧
      effectCacheKeyHash
          { name := "water", defines := buildDefines [("A", "1"), ("B", "2")] } =
        effectCacheKeyHash
          { name := "water", defines := buildDefines [("B", "2"), ("A", "1")] } ∧
      findCached ([] : List (EffectCacheKey × Option CShaderTechnique))
          { name := "water", defines := buildDefines [("A", "1"), ("B", "2")] } =
        findCached ([] : List (EffectCacheKey × Option CShaderTechnique))
          { name := "water", defines := buildDefines [("B", "2"), ("A", "1")] } :=
  c6_cache_key_equality_hash.2.2.2 "water" [("A", "1"), ("B", "2")] [("B", "2"), ("A", "1")]
    [] (List.Perm.swap ("B", "2") ("A", "1") []) (by decide)

/-! ## C1: idempotent caching, including cached failures -/

theorem findCached_append_of_none {κ α : Type} [DecidableEq κ]
    (l : List (κ × α)) (k : κ) (v : α) (h : findCached l k = none) :
    findCached (l ++ [(k, v)]) k = some v := by
  induction l with
  | nil => simp [findCached]
  | cons a t ih =>
    obtain ⟨k0, v0⟩ := a
    by_cases hk : k0 = k
    · simp [findCached, hk] at h
    · simp only [findCached, if_neg hk] at h
      simpa only [List.cons_append, findCached, if_neg hk] using ih h

theorem newProgramRun_caches (env : ManagerEnv) (s : ShaderManagerState)
    (n : String) (d : CShaderDefines) :
    (newProgramRun env s n d).2.programCache = s.programCache ∧
      (newProgramRun env s n d).2.effectCache = s.effectCache := by
  unfold newProgramRun
  rcases hdoc : env.progDocs n with _ | root
  · simp
  · by_cases hv : env.validateProg root
    · simp only [hv]
      rcases hp : parseProgramDoc env.gles (env.tcond d) d root with pd | pp <;> simp [hp]
    · simp [hv]

theorem loadProgram_effectCache (env : ManagerEnv) (s : ShaderManagerState)
    (n : String) (d : CShaderDefines) :
    (loadProgram env s n d).2.effectCache = s.effectCache := by
  rcases hfind : findCached s.programCache { name := n, defines := d } with _ | h
  · rcases hrun : newProgramRun env s n d with ⟨r, s1⟩
    have hpres := (newProgramRun_caches env s n d).2
    rw [hrun] at hpres
    simp only at hpres
    rcases r with pd | op
    · simp [loadProgram, hfind, hrun, hpres]
    · rcases op with _ | p <;> simp [loadProgram, hfind, hrun, hpres]
  · simp [loadProgram, hfind]

theorem buildPasses_effectCache (env : ManagerEnv) :
    ∀ (cs : List XMBElement) (techD : CShaderDefines) (s : ShaderManagerState),
      (buildPasses env cs techD s).2.effectCache = s.effectCache := by
  intro cs
  induction cs with
  | nil => intro techD s; rfl
  | cons c rest ih =>
    intro techD s
    by_cases hp : c.nodeName = "pass"
    · simp only [buildPasses, if_pos hp]
      rcases hload : loadProgram env
          { s with log := s.log ++ (processPass env.benv techD env.defaultDesc c).log }
          (getAttr c "shader") (processPass env.benv techD env.defaultDesc c).passDefines
        with ⟨r, s2⟩
      have hpres := loadProgram_effectCache env
        { s with log := s.log ++ (processPass env.benv techD env.defaultDesc c).log }
        (getAttr c "shader") (processPass env.benv techD env.defaultDesc c).passDefines
      rw [hload] at hpres
      simp only at hpres
      rcases r with pd | prog
      · simpa using hpres
      · rcases hrec : buildPasses env rest techD s2 with ⟨r3, s3⟩
        have hr := ih techD s2
        rw [hrec] at hr
        simp only at hr
        rcases r3 with pd3 | ps <;> simp_all
    · simp only [buildPasses, if_neg hp]
      exact ih techD s

theorem newEffectRun_effectCache (env : ManagerEnv) (s : ShaderManagerState)
    (n : String) (d : CShaderDefines) :
    (newEffectRun env s n d).2.effectCache = s.effectCache := by
  rcases hdoc : env.effectDocs n with _ | root
  · simp [newEffectRun, hdoc]
  · simp only [newEffectRun, hdoc]
    rcases hu : (collectUsableTechs env.venv (env.tcond d) root.children).1 with _ | ⟨t0, ts⟩
    · simp [newEffectFromRoot, hu]
    · simp only [newEffectFromRoot, hu]
      rcases hb : buildPasses env t0.children (techDefinesAndSort d t0).1
          { s with fileReads := s.fileReads + 1 } with ⟨r, s2⟩
      have hpres := buildPasses_effectCache env t0.children (techDefinesAndSort d t0).1
        { s with fileReads := s.fileReads + 1 }
      rw [hb] at hpres
      simp only at hpres
      rcases r with pd | ps <;> simp [hb, hpres]

theorem loadProgram_memo (env : ManagerEnv) (s : ShaderManagerState) (n : String)
    (d : CShaderDefines) (h : Option Program) (s1 : ShaderManagerState)
    (hcall : loadProgram env s n d = (.ok h, s1)) :
    loadProgram env s1 n d = (.ok h, s1) := by
  rcases hfind : findCached s.programCache { name := n, defines := d } with _ | h0
  · rcases hrun : newProgramRun env s n d with ⟨r, s'⟩
    have hpc := (newProgramRun_caches env s n d).1
    rw [hrun] at hpc
    simp only at hpc
    rcases r with pd | op
    · simp [loadProgram, hfind, hrun] at hcall
    · rcases op with _ | p
      · simp only [loadProgram, hfind, hrun] at hcall
        simp only [Prod.mk.injEq] at hcall
        obtain ⟨hh, hs⟩ := hcall
        have hfind2 : findCached s1.programCache { name := n, defines := d } = some none := by
          rw [← hs]
          exact findCached_append_of_none _ _ _ (hpc ▸ hfind)
        simp only [Except.ok.injEq] at hh
        simp [loadProgram, hfind2, ← hh]
      · simp only [loadProgram, hfind, hrun] at hcall
        simp only [Prod.mk.injEq] at hcall
        obtain ⟨hh, hs⟩ := hcall
        have hfind2 : findCached s1.programCache { name := n, defines := d } = some (some p) := by
          rw [← hs]
          exact findCached_append_of_none _ _ _ (hpc ▸ hfind)
        simp only [Except.ok.injEq] at hh
        simp [loadProgram, hfind2, ← hh]
  · simp only [loadProgram, hfind] at hcall
    simp only [Prod.mk.injEq] at hcall
    obtain ⟨hh, hs⟩ := hcall
    simp only [Except.ok.injEq] at hh
    rw [← hs]
    simp [loadProgram, hfind, hh]

theorem loadEffect_memo (env : ManagerEnv) (s : ShaderManagerState) (n : String)
    (d : CShaderDefines) (h : Option CShaderTechnique) (s1 : ShaderManagerState)
    (hcall : loadEffect env s n d = (.ok h, s1)) :
    loadEffect env s1 n d = (.ok h, s1) := by
  rcases hfind : findCached s.effectCache { name := n, defines := d } with _ | h0
  · rcases hrun : newEffectRun env s n d with ⟨r, s'⟩
    have hec := newEffectRun_effectCache env s n d
    rw [hrun] at hec
    simp only at hec
    rcases r with pd | op
    · simp [loadEffect, hfind, hrun] at hcall
    · rcases op with _ | t
      · simp only [loadEffect, hfind, hrun] at hcall
        simp only [Prod.mk.injEq] at hcall
        obtain ⟨hh, hs⟩ := hcall
        have hfind2 : findCached s1.effectCache { name := n, defines := d } = some none := by
          rw [← hs]
          exact findCached_append_of_none _ _ _ (hec ▸ hfind)
        simp only [Except.ok.injEq] at hh
        simp [loadEffect, hfind2, ← hh]
      · simp only [loadEffect, hfind, hrun] at hcall
        simp only [Prod.mk.injEq] at hcall
        obtain ⟨hh, hs⟩ := hcall
        have hfind2 : findCached s1.effectCache { name := n, defines := d } = some (some t) := by
          rw [← hs]
          exact findCached_append_of_none _ _ _ (hec ▸ hfind)
        simp only [Except.ok.injEq] at hh
        simp [loadEffect, hfind2, ← hh]
  · simp only [loadEffect, hfind] at hcall
    simp only [Prod.mk.injEq] at hcall
    obtain ⟨hh, hs⟩ := hcall
    simp only [Except.ok.injEq] at hh
    rw [← hs]
    simp [loadEffect, hfind, hh]

theorem loadProgram_missing (env : ManagerEnv) (s : ShaderManagerState) (n : String)
    (d : CShaderDefines) (hdoc : env.progDocs n = none)
    (hfind : findCached s.programCache { name := n, defines := d } = none) :
    loadProgram env s n d =
      (.ok none,
       { s with fileReads := s.fileReads + 1,
                log := s.log ++ ["Failed to load shader '" ++ n ++ "'"],
                programCache :=
                  s.programCache ++ [({ name := n, defines := d }, none)] }) := by
  simp [loadProgram, hfind, newProgramRun, hdoc]

theorem loadEffect_missing (env : ManagerEnv) (s : ShaderManagerState) (n : String)
    (d : CShaderDefines) (hdoc : env.effectDocs n = none)
    (hfind : findCached s.effectCache { name := n, defines := d } = none) :
    loadEffect env s n d =
      (.ok none,
       { s with fileReads := s.fileReads + 1,
                log := s.log ++ ["Failed to load effect '" ++ n ++ "'"],
                effectCache :=
                  s.effectCache ++ [({ name := n, defines := d }, none)] }) := by
  simp [loadEffect, hfind, newEffectRun, hdoc]

/-- C1: resolution is memoized at both cache levels, failures included.  A
second call with a key equal to a previous call's key returns the stored
handle and leaves the whole state (log, file-read count, caches) unchanged;
in particular, resolving a program or effect name whose document is missing
twice performs exactly one document read, emits exactly one log entry, and
returns the same null failure handle both times. -/
theorem c1_failure_memoization :
    (∀ (env : ManagerEnv) (s : ShaderManagerState) (n : String) (d : CShaderDefines)
       (h : Option Program) (s1 : ShaderManagerState),
       loadProgram env s n d = (.ok h, s1) → loadProgram env s1 n d = (.ok h, s1)) ∧
    (∀ (env : ManagerEnv) (s : ShaderManagerState) (n : String) (d : CShaderDefines)
       (h : Option CShaderTechnique) (s1 : ShaderManagerState),
       loadEffect env s n d = (.ok h, s1) → loadEffect env s1 n d = (.ok h, s1)) ∧
    (∀ (env : ManagerEnv) (s : ShaderManagerState) (n : String) (d : CShaderDefines),
       env.progDocs n = none →
       findCached s.programCache { name := n, defines := d } = none →
       loadProgram env s n d =
           (.ok none,
            { s with fileReads := s.fileReads + 1,
                     log := s.log ++ ["Failed to load shader '" ++ n ++ "'"],
                     programCache :=
                       s.programCache ++ [({ name := n, defines := d }, none)] }) ∧
         loadProgram env
             { s with fileReads := s.fileReads + 1,
                      log := s.log ++ ["Failed to load shader '" ++ n ++ "'"],
                      programCache :=
                        s.programCache ++ [({ name := n, defines := d }, none)] } n d =
           (.ok none,
            { s with fileReads := s.fileReads + 1,
                     log := s.log ++ ["Failed to load shader '" ++ n ++ "'"],
                     programCache :=
                       s.programCache ++ [({ name := n, defines := d }, none)] })) ∧
    (∀ (env : ManagerEnv) (s : ShaderManagerState) (n : String) (d : CShaderDefines),
       env.effectDocs n = none →
       findCached s.effectCache { name := n, defines := d } = none →
       loadEffect env s n d =
           (.ok none,
            { s with fileReads := s.fileReads + 1,
                     log := s.log ++ ["Failed to load effect '" ++ n ++ "'"],
                     effectCache :=
                       s.effectCache ++ [({ name := n, defines := d }, none)] }) ∧
         loadEffect env
             { s with fileReads := s.fileReads + 1,
                      log := s.log ++ ["Failed to load effect '" ++ n ++ "'"],
                      effectCache :=
                        s.effectCache ++ [({ name := n, defines := d }, none)] } n d =
           (.ok none,
            { s with fileReads := s.fileReads + 1,
                     log := s.log ++ ["Failed to load effect '" ++ n ++ "'"],
                     effectCache :=
                       s.effectCache ++ [({ name := n, defines := d }, none)] })) := by
  refine ⟨loadProgram_memo, loadEffect_memo, ?_, ?_⟩
  · intro env s n d hdoc hfind
    have h1 := loadProgram_missing env s n d hdoc hfind
    exact ⟨h1, loadProgram_memo env s n d none _ h1⟩
  · intro env s n d hdoc hfind
    have h1 := loadEffect_missing env s n d hdoc hfind
    exact ⟨h1, loadEffect_memo env s n d none _ h1⟩

/-- Witness for C1: in the empty-filesystem environment, loading the missing
program "p" twice returns the cached failure handle with a single log entry
and a single file read. -/
theorem c1_witness :
    loadProgram env0 st0 "p" [] =
        (.ok none,
         { st0 with fileReads := 1,
                    log := ["Failed to load shader 'p'"],
                    programCache := [({ name := "p", defines := [] }, none)] }) ∧
      loadProgram env0
          { st0 with fileReads := 1,
                     log := ["Failed to load shader 'p'"],
                     programCache := [({ name := "p", defines := [] }, none)] } "p" [] =
        (.ok none,
         { st0 with fileReads := 1,
                    log := ["Failed to load shader 'p'"],
                    programCache := [({ name := "p", defines := [] }, none)] }) := by
  have h := c1_failure_memoization.2.2.1 env0 st0 "p" [] rfl rfl
  simpa [st0] using h
